import Mathlib

/-!
# Path tracer core (`src/student/pathtracer.cpp`)

A shallow embedding of `Pathtracer::trace_pixel` and `Pathtracer::trace_ray`.

* Scalars (`float`) are modelled over exact rational arithmetic `ℚ`. The division of line 112,
  whose divisor no guard keeps away from zero, is `fdiv`: for a zero divisor its value is the
  parameter `div_zero`, a stand-in for the non-finite `float` result.
* The count `(int)n_area_samples` of line 80 is a 32-bit two's-complement `int`.
* The collaborators (scene, camera, materials, lights, samplers, random source) and the
  library functions whose code is not part of the translated file are fields of `Env`.
* Every collaborator that may consume randomness is a state-passing function over an abstract
  random-source state `σ`.
* Every call to a collaborator appends an `Event` to a log carried in the state `St`, so that
  statements of the form "no scene query is made" are statements about the log.
-/

namespace PT

/-! ## Data model -/

/-- Modelled from the spec: the type `Vec2` is declared outside `pathtracer.cpp`. A
two-component vector. -/
structure Vec2 where
  x : ℚ
  y : ℚ
deriving DecidableEq

/-- Modelled from the spec: the type `Vec3` is declared outside `pathtracer.cpp`. A
three-component vector. -/
structure Vec3 where
  x : ℚ
  y : ℚ
  z : ℚ
deriving DecidableEq

/-- Modelled from the spec: the type `Spectrum` is declared outside `pathtracer.cpp`. A colour
value with three channels. -/
structure Spectrum where
  r : ℚ
  g : ℚ
  b : ℚ
deriving DecidableEq

/-- Modelled from the spec: the type `Ray` is declared outside `pathtracer.cpp`. Origin point,
direction, valid parameter interval and bounce-depth counter. -/
structure Ray where
  point : Vec3
  dir : Vec3
  time_bounds : Vec2
  depth : Nat
deriving DecidableEq

/-- Modelled from the spec: the type `Trace` is declared outside `pathtracer.cpp`. A hit flag
and, for a hit, the distance, position, normal and material index. -/
structure Trace where
  hit : Bool
  distance : ℚ
  position : Vec3
  normal : Vec3
  material : Nat
deriving DecidableEq

/-- Modelled from the spec: the type `BSDF_Sample` is declared outside `pathtracer.cpp`.
Emissive radiance, attenuation, sampled local direction and pdf. -/
structure BSDF_Sample where
  emissive : Spectrum
  attenuation : Spectrum
  direction : Vec3
  pdf : ℚ
deriving DecidableEq

/-- Modelled from the spec: the type `Light_Sample` is declared outside `pathtracer.cpp`.
Radiance, world-space direction toward the light, distance and pdf. -/
structure Light_Sample where
  radiance : Spectrum
  direction : Vec3
  distance : ℚ
  pdf : ℚ
deriving DecidableEq

/-- Modelled from the spec: the type `Mat4` is declared outside `pathtracer.cpp`. Only its
rotation part is kept, stored as three columns. -/
structure Mat4 where
  c0 : Vec3
  c1 : Vec3
  c2 : Vec3
deriving DecidableEq

/-! ## Vector and spectrum arithmetic -/

/-- Modelled from the spec: `Vec2::operator+=` is declared outside `pathtracer.cpp`.
Component-wise sum. -/
def Vec2.add (a b : Vec2) : Vec2 := ⟨a.x + b.x, a.y + b.y⟩

/-- Modelled from the spec: `Vec2 / Vec2` is declared outside `pathtracer.cpp`. Component-wise
quotient. -/
def Vec2.div (a b : Vec2) : Vec2 := ⟨a.x / b.x, a.y / b.y⟩

/-- Modelled from the spec: the constructor `Vec2(float)` is declared outside
`pathtracer.cpp`. It sets both components. -/
def Vec2.splat (f : ℚ) : Vec2 := ⟨f, f⟩

/-- Modelled from the spec: unary minus on `Vec3` is declared outside `pathtracer.cpp`. -/
def Vec3.neg (a : Vec3) : Vec3 := ⟨-a.x, -a.y, -a.z⟩

/-- Modelled from the spec: `Vec3 - Vec3` is declared outside `pathtracer.cpp`. -/
def Vec3.sub (a b : Vec3) : Vec3 := ⟨a.x - b.x, a.y - b.y, a.z - b.z⟩

/-- Modelled from the spec: `dot` is declared outside `pathtracer.cpp`. The dot product. -/
def dot (a b : Vec3) : ℚ := a.x * b.x + a.y * b.y + a.z * b.z

/-- Modelled from the spec: `Mat4::T` is declared outside `pathtracer.cpp`. The transpose, which
for a rotation is the inverse. -/
def Mat4.T (m : Mat4) : Mat4 :=
  ⟨⟨m.c0.x, m.c1.x, m.c2.x⟩, ⟨m.c0.y, m.c1.y, m.c2.y⟩, ⟨m.c0.z, m.c1.z, m.c2.z⟩⟩

/-- Modelled from the spec: `Mat4::rotate` is declared outside `pathtracer.cpp`. The rotation
part applied to a vector. -/
def Mat4.rotate (m : Mat4) (v : Vec3) : Vec3 :=
  ⟨m.c0.x * v.x + m.c1.x * v.y + m.c2.x * v.z,
   m.c0.y * v.x + m.c1.y * v.y + m.c2.y * v.z,
   m.c0.z * v.x + m.c1.z * v.y + m.c2.z * v.z⟩

/-- Modelled from the spec: the constructors `Spectrum()` and `Spectrum(0.f)` are declared
outside `pathtracer.cpp`. Zero radiance. -/
def Spectrum.zero : Spectrum := ⟨0, 0, 0⟩

/-- Modelled from the spec: `Spectrum::operator+=` is declared outside `pathtracer.cpp`.
Channel-wise sum. -/
def Spectrum.add (a b : Spectrum) : Spectrum := ⟨a.r + b.r, a.g + b.g, a.b + b.b⟩

/-- Modelled from the spec: `Spectrum * Spectrum` is declared outside `pathtracer.cpp`.
Channel-wise product. -/
def Spectrum.mul (a b : Spectrum) : Spectrum := ⟨a.r * b.r, a.g * b.g, a.b * b.b⟩

/-- Modelled from the spec: `float * Spectrum` is declared outside `pathtracer.cpp`. Every
channel is scaled. -/
def Spectrum.scale (k : ℚ) (a : Spectrum) : Spectrum := ⟨k * a.r, k * a.g, k * a.b⟩

/-- Modelled from the spec: `Spectrum * float` is declared outside `pathtracer.cpp`. Every
channel is scaled. -/
def Spectrum.muls (a : Spectrum) (k : ℚ) : Spectrum := ⟨a.r * k, a.g * k, a.b * k⟩

/-- Modelled from the spec: `Spectrum / float` is declared outside `pathtracer.cpp`. Every
channel is divided. -/
def Spectrum.divs (a : Spectrum) (k : ℚ) : Spectrum := ⟨a.r / k, a.g / k, a.b / k⟩

/-- Every channel is non-negative. -/
def Spectrum.nonneg (a : Spectrum) : Prop := 0 ≤ a.r ∧ 0 ≤ a.g ∧ 0 ≤ a.b

instance (a : Spectrum) : Decidable a.nonneg := by
  unfold Spectrum.nonneg; infer_instance

/-! ## Collaborators, events and state -/

/-- One observable call made by the integrator. -/
inductive Event where
  /-- `Samplers::Rect::Uniform().sample(pdf)` in `trace_pixel`. -/
  | rect_sample : Event
  /-- `camera.generate_ray(ndc)` in `trace_pixel`. -/
  | generate_ray : Vec2 → Event
  /-- `RNG::coin_flip(p)` in `trace_pixel`. -/
  | coin_flip : ℚ → Event
  /-- `log_ray(ray, t)` in `trace_pixel`. -/
  | log_ray : Ray → ℚ → Event
  /-- `scene.hit(ray)` on the ray being traced. -/
  | scene_hit : Ray → Event
  /-- `env_light.value().sample_direction(dir)` in the miss branch. -/
  | env_sample_direction : Vec3 → Event
  /-- `bsdf.sample(out_dir)` for the material with the given index. -/
  | bsdf_sample : Nat → Vec3 → Event
  /-- `light.sample(position)` inside `sample_light`. -/
  | light_sample : Vec3 → Event
  /-- `bsdf.evaluate(out_dir, in_dir)` inside `sample_light`. -/
  | bsdf_evaluate : Nat → Vec3 → Vec3 → Event
  /-- `scene.hit(shadow_ray)` inside `sample_light`. -/
  | shadow_hit : Ray → Event
  /-- `RNG::unit()`, the Russian-roulette draw. -/
  | rng_unit : Event
deriving DecidableEq

/-- Reflectance model of a material (`BSDF`). -/
structure BSDF (σ : Type) where
  is_sided : Bool
  is_discrete : Bool
  sample : Vec3 → σ → BSDF_Sample × σ
  evaluate : Vec3 → Vec3 → Spectrum

/-- A scene light: what `sample_light` requires of its argument. -/
structure Light (σ : Type) where
  is_discrete : Bool
  sample : Vec3 → σ → Light_Sample × σ

/-- The environment light: a light that can also be queried by direction. -/
structure Env_Light (σ : Type) extends Light σ where
  sample_direction : Vec3 → Spectrum

/-- Members of `Pathtracer` read by the integrator, and the library functions it calls. -/
structure Env (σ : Type) where
  max_depth : Nat
  n_samples : Nat
  n_area_samples : Nat
  out_w : Nat
  out_h : Nat
  normal_colors : Bool
  EPS_F : ℚ
  /-- Upper time bound a freshly constructed `Ray` starts with. -/
  T_MAX : ℚ
  scene_hit : Ray → Trace
  materials : Nat → BSDF σ
  lights : List (Light σ)
  env_light : Option (Env_Light σ)
  camera_generate_ray : Vec2 → σ → Ray × σ
  rect_uniform_sample : σ → Vec2 × σ
  rng_unit : σ → ℚ × σ
  rng_coin_flip : ℚ → σ → Bool × σ
  luma : Spectrum → ℚ
  direction : Vec3 → Spectrum
  rotate_to : Vec3 → Mat4
  unit : Vec3 → Vec3
  norm : Vec3 → ℚ
  /-- Stand-in for the result of a `float` division by zero, by numerator. IEEE arithmetic
  yields an infinity or NaN there, which is no rational number, so nothing is assumed of it. -/
  div_zero : ℚ → ℚ

/-- Random-source state together with the log of collaborator calls made so far. -/
structure St (σ : Type) where
  rng : σ
  log : List Event

/-- Append one event to the log. -/
def St.emit {σ : Type} (s : St σ) (e : Event) : St σ := ⟨s.rng, s.log ++ [e]⟩

/-- Replace the random-source state. -/
def St.withRng {σ : Type} (s : St σ) (r : σ) : St σ := ⟨r, s.log⟩

/-- Modelled from the spec: the constructor `Ray(point, dir)` is declared outside
`pathtracer.cpp`. A new ray starts at `point`, points along `dir`,
has the default parameter interval and depth 0. -/
def Ray.mk2 {σ : Type} (env : Env σ) (point dir : Vec3) : Ray :=
  ⟨point, dir, ⟨0, env.T_MAX⟩, 0⟩

/-! ## `Pathtracer::trace_ray` -/

section Integrator

variable {σ : Type}

/-- The `float` quotient `a / b`: the exact quotient when the divisor is not zero, and the
stand-in `env.div_zero a` for the non-finite IEEE result when it is. -/
def fdiv (env : Env σ) (a b : ℚ) : ℚ :=
  if b = 0 then env.div_zero a else a / b

/-- The conversion `(int)n` of an unsigned integer to a 32-bit `int`: the value is reduced
modulo `2^32` and read in two's complement. -/
def to_int (n : Nat) : Int :=
  if n % 2 ^ 32 < 2 ^ 31 then ((n % 2 ^ 32 : Nat) : Int)
  else ((n % 2 ^ 32 : Nat) : Int) - 2 ^ 32

/-- Lines 49-52: the hit record after the normal flip. The normal is negated when the material
is not sided and the normal points along the ray. -/
def flip_normal (env : Env σ) (ray : Ray) (hit : Trace) : Trace :=
  if (!(env.materials hit.material).is_sided) && decide (dot hit.normal ray.dir > 0) then
    { hit with normal := hit.normal.neg }
  else hit

/-- Lines 40-52: the hit record used for shading the ray. -/
def shading_hit (env : Env σ) (ray : Ray) : Trace :=
  flip_normal env ray (env.scene_hit ray)

/-- Line 57: `object_to_world`. -/
def object_to_world (env : Env σ) (ray : Ray) : Mat4 :=
  env.rotate_to (shading_hit env ray).normal

/-- Line 58: `world_to_object`. -/
def world_to_object (env : Env σ) (ray : Ray) : Mat4 :=
  (object_to_world env ray).T

/-- Line 59: `out_dir`, the local direction back toward the ray origin. -/
def out_dir (env : Env σ) (ray : Ray) : Vec3 :=
  env.unit ((world_to_object env ray).rotate (ray.point.sub (shading_hit env ray).position))

/-- Lines 99-100: the shadow ray toward a light sample. -/
def shadow_ray (env : Env σ) (position : Vec3) (sample : Light_Sample) : Ray :=
  { Ray.mk2 env position sample.direction with
    time_bounds := ⟨env.EPS_F, sample.distance / env.norm sample.direction - env.EPS_F⟩ }

/-- Line 112: the radiance one unoccluded light sample adds,
`(cos_theta / (samples * sample.pdf)) * sample.radiance * absorbsion`. No guard keeps
`sample.pdf` away from zero, so the quotient is the `float` quotient `fdiv`. -/
def light_term (env : Env σ) (samples : Int) (cos_theta : ℚ) (sample : Light_Sample)
    (absorbsion : Spectrum) : Spectrum :=
  (Spectrum.scale (fdiv env cos_theta ((samples : ℚ) * sample.pdf)) sample.radiance).mul
    absorbsion

/-- Lines 83-112: one iteration of the loop in `sample_light`. The accumulator is
`radiance_out` paired with the state; a `continue` leaves `radiance_out` as it was. -/
def sample_light_iter (env : Env σ) (hit : Trace) (w2o : Mat4) (odir : Vec3) (samples : Int)
    (light : Light σ) (acc : Spectrum × St σ) : Spectrum × St σ :=
  let ls := light.sample hit.position acc.2.rng
  let sample := ls.1
  let s1 := (acc.2.withRng ls.2).emit (Event.light_sample hit.position)
  let in_dir := w2o.rotate sample.direction
  let cos_theta := in_dir.y
  if cos_theta ≤ 0 then (acc.1, s1) else
  let absorbsion := (env.materials hit.material).evaluate odir in_dir
  let s2 := s1.emit (Event.bsdf_evaluate hit.material odir in_dir)
  if env.luma absorbsion = 0 then (acc.1, s2) else
  let shadow := shadow_ray env hit.position sample
  let shadow_hit := env.scene_hit shadow
  let s3 := s2.emit (Event.shadow_hit shadow)
  if shadow_hit.hit then (acc.1, s3) else
  (acc.1.add (light_term env samples cos_theta sample absorbsion), s3)

/-- Line 81: the loop `for (int i = 0; i < samples; i++)`, by the number of iterations left. -/
def sample_light_loop (env : Env σ) (hit : Trace) (w2o : Mat4) (odir : Vec3) (samples : Int)
    (light : Light σ) : Nat → Spectrum × St σ → Spectrum × St σ
  | 0, acc => acc
  | n + 1, acc =>
    sample_light_loop env hit w2o odir samples light n
      (sample_light_iter env hit w2o odir samples light acc)

/-- Line 80: `int samples = light.is_discrete() ? 1 : (int)n_area_samples`. -/
def sample_count (env : Env σ) (light : Light σ) : Int :=
  if light.is_discrete then 1 else to_int env.n_area_samples

/-- Lines 77-115: the lambda `sample_light`. The loop counter runs from 0 while it is below
`samples`, so the body is executed `samples.toNat` times, not at all when `samples <= 0`. -/
def sample_light (env : Env σ) (hit : Trace) (w2o : Mat4) (odir : Vec3)
    (light : Light σ) (acc : Spectrum × St σ) : Spectrum × St σ :=
  sample_light_loop env hit w2o odir (sample_count env light) light
    (sample_count env light).toNat acc

/-- Lines 120-121: `for (const auto &light : lights) sample_light(light)`. -/
def sample_lights (env : Env σ) (hit : Trace) (w2o : Mat4) (odir : Vec3) :
    List (Light σ) → Spectrum × St σ → Spectrum × St σ
  | [], acc => acc
  | l :: ls, acc => sample_lights env hit w2o odir ls (sample_light env hit w2o odir l acc)

/-- Lines 119-124: the direct-lighting stage. -/
def direct_lighting (env : Env σ) (mat : BSDF σ) (hit : Trace) (w2o : Mat4) (odir : Vec3)
    (acc : Spectrum × St σ) : Spectrum × St σ :=
  if !mat.is_discrete then
    let a := sample_lights env hit w2o odir env.lights acc
    match env.env_light with
    | some e => sample_light env hit w2o odir e.toLight a
    | none => a
  else acc

/-- Lines 145-146: the continuation probability `pRR`. -/
def roulette_prob (env : Env σ) (bsdf_sample : BSDF_Sample) : ℚ :=
  if env.luma bsdf_sample.attenuation < 3 / 10 then 1 / 2 else 1

/-- Lines 150-152: the bounced ray. -/
def bounced_ray (env : Env σ) (ray : Ray) (hit : Trace) (o2w : Mat4)
    (bsdf_sample : BSDF_Sample) : Ray :=
  let r := Ray.mk2 env hit.position (o2w.rotate bsdf_sample.direction)
  { r with
    time_bounds := ⟨env.EPS_F, r.time_bounds.y⟩
    depth := ray.depth + 1 }

/-- Line 155: the indirect term added to `radiance_out`, for incoming radiance `incoming`. -/
def indirect_term (bsdf_sample : BSDF_Sample) (incoming : Spectrum) (pRR : ℚ) : Spectrum :=
  ((bsdf_sample.attenuation.mul incoming).muls |bsdf_sample.direction.y|).divs
    (bsdf_sample.pdf * pRR)

/-- Lines 35-158: `Pathtracer::trace_ray`. -/
def trace_ray (env : Env σ) (ray : Ray) (s : St σ) : Spectrum × St σ :=
  if ray.depth > env.max_depth then (Spectrum.zero, s) else
  let hit0 := env.scene_hit ray
  let s1 := s.emit (Event.scene_hit ray)
  if !hit0.hit then
    match env.env_light with
    | some e => (e.sample_direction ray.dir, s1.emit (Event.env_sample_direction ray.dir))
    | none => (Spectrum.zero, s1)
  else
  let bsdf := env.materials hit0.material
  let hit := shading_hit env ray
  let o2w := object_to_world env ray
  let w2o := world_to_object env ray
  let odir := out_dir env ray
  if env.normal_colors then (env.direction hit.normal, s1) else
  let bs := bsdf.sample odir s1.rng
  let bsdf_sample := bs.1
  let s2 := (s1.withRng bs.2).emit (Event.bsdf_sample hit0.material odir)
  let direct := direct_lighting env bsdf hit w2o odir (bsdf_sample.emissive, s2)
  let pRR := roulette_prob env bsdf_sample
  let u := env.rng_unit direct.2.rng
  let s3 := (direct.2.withRng u.2).emit Event.rng_unit
  if u.1 > pRR then (direct.1, s3) else
  let incoming := trace_ray env (bounced_ray env ray hit o2w bsdf_sample) s3
  (direct.1.add (indirect_term bsdf_sample incoming.1 pRR), incoming.2)
termination_by env.max_depth + 1 - ray.depth
decreasing_by
  simp only [bounced_ray]
  omega

/-! ## `Pathtracer::trace_pixel` -/

/-- Line 27: the offset added to the pixel coordinates, with the state after drawing it. -/
def pixel_offset (env : Env σ) (s : St σ) : Vec2 × St σ :=
  if env.n_samples > 1 then
    let d := env.rect_uniform_sample s.rng
    (d.1, (s.withRng d.2).emit Event.rect_sample)
  else (Vec2.splat (1 / 2), s)

/-- Lines 11-29: the argument `xy / wh` passed to `camera.generate_ray`. -/
def pixel_ndc (env : Env σ) (x y : Nat) (s : St σ) : Vec2 :=
  ((Vec2.mk (x : ℚ) (y : ℚ)).add (pixel_offset env s).1).div
    (Vec2.mk (env.out_w : ℚ) (env.out_h : ℚ))

/-- Lines 29-31: the camera ray and the state in which `trace_ray` is entered. -/
def pixel_ray (env : Env σ) (x y : Nat) (s : St σ) : Ray × St σ :=
  let ndc := pixel_ndc env x y s
  let s1 := (pixel_offset env s).2
  let g := env.camera_generate_ray ndc s1.rng
  let s2 := (s1.withRng g.2).emit (Event.generate_ray ndc)
  let c := env.rng_coin_flip (1 / 2000) s2.rng
  let s3 := (s2.withRng c.2).emit (Event.coin_flip (1 / 2000))
  if c.1 then (g.1, s3.emit (Event.log_ray g.1 10)) else (g.1, s3)

/-- Lines 9-33: `Pathtracer::trace_pixel`. -/
def trace_pixel (env : Env σ) (x y : Nat) (s : St σ) : Spectrum × St σ :=
  trace_ray env (pixel_ray env x y s).1 (pixel_ray env x y s).2

/-- A light whose samples have non-negative radiance and positive pdf. -/
def Light.wellBehaved (light : Light σ) : Prop :=
  ∀ p rng, (light.sample p rng).1.radiance.nonneg ∧ 0 < (light.sample p rng).1.pdf

/-- Every collaborator returns component-wise non-negative spectra, and every light-sample pdf
and every reflectance-sample pdf is positive. -/
structure Env.wellBehaved (env : Env σ) : Prop where
  bsdf_emissive : ∀ m d rng, ((env.materials m).sample d rng).1.emissive.nonneg
  bsdf_attenuation : ∀ m d rng, ((env.materials m).sample d rng).1.attenuation.nonneg
  bsdf_pdf : ∀ m d rng, 0 < ((env.materials m).sample d rng).1.pdf
  bsdf_evaluate : ∀ m o i, ((env.materials m).evaluate o i).nonneg
  lights_ok : ∀ l ∈ env.lights, l.wellBehaved
  env_light_ok : ∀ e, env.env_light = some e → e.toLight.wellBehaved
  env_direction : ∀ e, env.env_light = some e → ∀ d, (e.sample_direction d).nonneg

/-! ## A small concrete scene

A floor seen from above, one diffuse material, one point light overhead. The random source is
a list of upcoming uniform draws. -/

/-- A diffuse, non-emissive material whose sample always points along the local up axis. -/
def ex_bsdf : BSDF (List ℚ) where
  is_sided := false
  is_discrete := false
  sample := fun _ rng => (⟨⟨0, 0, 0⟩, ⟨1 / 2, 1 / 2, 1 / 2⟩, ⟨0, 1, 0⟩, 1⟩, rng)
  evaluate := fun _ _ => ⟨1 / 4, 1 / 4, 1 / 4⟩

/-- An ideal mirror that emits a little light. -/
def ex_mirror : BSDF (List ℚ) where
  is_sided := false
  is_discrete := true
  sample := fun _ rng => (⟨⟨1, 0, 0⟩, ⟨1, 1, 1⟩, ⟨0, 1, 0⟩, 1⟩, rng)
  evaluate := fun _ _ => ⟨0, 0, 0⟩

/-- A point light straight above the floor. -/
def ex_light : Light (List ℚ) where
  is_discrete := true
  sample := fun _ rng => (⟨⟨1, 1, 1⟩, ⟨0, 1, 0⟩, 5, 1⟩, rng)

/-- A constant sky. -/
def ex_sky : Env_Light (List ℚ) where
  is_discrete := false
  sample := fun _ rng => (⟨⟨1, 1, 1⟩, ⟨0, 1, 0⟩, 1000, 1 / 4⟩, rng)
  sample_direction := fun _ => ⟨1, 1, 1⟩

/-- The identity rotation. -/
def Mat4.I : Mat4 := ⟨⟨1, 0, 0⟩, ⟨0, 1, 0⟩, ⟨0, 0, 1⟩⟩

/-- The floor `y = 0`: rays travelling downward hit it at the origin, other rays miss. -/
def ex_floor (ray : Ray) : Trace :=
  if ray.dir.y < 0 then ⟨true, 1, ⟨0, 0, 0⟩, ⟨0, 1, 0⟩, 0⟩
  else ⟨false, 0, ⟨0, 0, 0⟩, ⟨0, 0, 0⟩, 0⟩

/-- The example scene, with no environment light and `max_depth = 0`. Its `div_zero` is an
arbitrary stand-in; no statement below relies on which. -/
def ex_env : Env (List ℚ) where
  max_depth := 0
  n_samples := 1
  n_area_samples := 2
  out_w := 4
  out_h := 2
  normal_colors := false
  EPS_F := 1 / 1000
  T_MAX := 1000000
  scene_hit := ex_floor
  materials := fun _ => ex_bsdf
  lights := [ex_light]
  env_light := none
  camera_generate_ray := fun ndc rng => (⟨⟨0, 1, 0⟩, ⟨ndc.x - 1 / 2, -1, ndc.y - 1 / 2⟩, ⟨0, 1000000⟩, 0⟩, rng)
  rect_uniform_sample := fun rng => (⟨1 / 4, 3 / 4⟩, rng)
  rng_unit := fun rng => (rng.headD 0, rng.tail)
  rng_coin_flip := fun p rng => (decide (rng.headD 0 < p), rng.tail)
  luma := fun c => 2126 / 10000 * c.r + 7152 / 10000 * c.g + 722 / 10000 * c.b
  direction := fun n => ⟨(n.x + 1) / 2, (n.y + 1) / 2, (n.z + 1) / 2⟩
  rotate_to := fun _ => Mat4.I
  unit := fun v => v
  norm := fun _ => 1
  div_zero := fun a => a

/-- The example scene under a constant sky. -/
def ex_env_sky : Env (List ℚ) := { ex_env with env_light := some ex_sky }

/-- The example scene under a constant sky, allowing two bounces. -/
def ex_env_sky2 : Env (List ℚ) := { ex_env with env_light := some ex_sky, max_depth := 2 }

/-- The example scene rendered with four jittered samples per pixel. -/
def ex_env_jitter : Env (List ℚ) := { ex_env with n_samples := 4 }

/-- The example scene with mirror materials. -/
def ex_env_mirror : Env (List ℚ) := { ex_env with materials := fun _ => ex_mirror }

/-- The example scene in which every ray is blocked. -/
def ex_env_blocked : Env (List ℚ) :=
  { ex_env with scene_hit := fun _ => ⟨true, 1, ⟨0, 0, 0⟩, ⟨0, 1, 0⟩, 0⟩ }

/-- A camera ray looking straight down at the floor, depth 0. -/
def ex_ray_down : Ray := ⟨⟨0, 1, 0⟩, ⟨0, -1, 0⟩, ⟨0, 1000000⟩, 0⟩

/-- A ray looking straight up, which misses the floor, depth 0. -/
def ex_ray_up : Ray := ⟨⟨0, 1, 0⟩, ⟨0, 1, 0⟩, ⟨0, 1000000⟩, 0⟩

/-- A ray looking down whose depth exceeds `max_depth = 0`. -/
def ex_ray_deep : Ray := ⟨⟨0, 1, 0⟩, ⟨0, -1, 0⟩, ⟨0, 1000000⟩, 1⟩

/-- An initial state: three upcoming uniform draws and an empty log. -/
def ex_st : St (List ℚ) := ⟨[1 / 4, 3 / 4, 1 / 2], []⟩

/-! ## The direct-lighting sum as the specification words it -/

/-- What one light sample contributes: `cos_theta / (sample_count * light_pdf) * light_radiance *
reflectance_throughput` when the sample is above the horizon, the throughput has non-zero luma
and the shadow ray is unoccluded, and nothing otherwise. -/
def sample_contribution (env : Env σ) (hit : Trace) (w2o : Mat4) (odir : Vec3)
    (sample_count : Int) (sample : Light_Sample) : Spectrum :=
  let in_dir := w2o.rotate sample.direction
  let cos_theta := in_dir.y
  let throughput := (env.materials hit.material).evaluate odir in_dir
  if 0 < cos_theta ∧ env.luma throughput ≠ 0 ∧
      (env.scene_hit (shadow_ray env hit.position sample)).hit = false then
    (Spectrum.scale (fdiv env cos_theta ((sample_count : ℚ) * sample.pdf))
      sample.radiance).mul throughput
  else Spectrum.zero

/-- The contributions of `n` successive samples of one light, in the order drawn, and the
random-source state after them. -/
def light_terms (env : Env σ) (hit : Trace) (w2o : Mat4) (odir : Vec3) (sample_count : Int)
    (light : Light σ) : Nat → σ → List Spectrum × σ
  | 0, rng => ([], rng)
  | n + 1, rng =>
    let d := light.sample hit.position rng
    let rest := light_terms env hit w2o odir sample_count light n d.2
    (sample_contribution env hit w2o odir sample_count d.1 :: rest.1, rest.2)

/-- The contributions of all samples of all lights of a list, in the order drawn: one sample
for a discrete light, `(int)n_area_samples` samples otherwise (none when that is not
positive). -/
def lights_terms (env : Env σ) (hit : Trace) (w2o : Mat4) (odir : Vec3) :
    List (Light σ) → σ → List Spectrum × σ
  | [], rng => ([], rng)
  | l :: ls, rng =>
    let here := light_terms env hit w2o odir
      (if l.is_discrete then 1 else to_int env.n_area_samples) l
      (if l.is_discrete then 1 else to_int env.n_area_samples).toNat rng
    let rest := lights_terms env hit w2o odir ls here.2
    (here.1 ++ rest.1, rest.2)

/-- Every scene light, followed by the environment light if one is configured. -/
def all_lights (env : Env σ) : List (Light σ) :=
  env.lights ++ (env.env_light.map Env_Light.toLight).toList

/-- Sum of a list of contributions added one after the other onto a starting value. -/
def accumulate (start : Spectrum) (terms : List Spectrum) : Spectrum :=
  terms.foldl Spectrum.add start

/-! ## Classifying logged calls -/

/-- The call is a scene intersection query on a traced ray (line 40). -/
def Event.isPrimary : Event → Bool
  | Event.scene_hit _ => true
  | _ => false

/-- The ray a scene intersection query was made on, for the two kinds of query. -/
def Event.queried : Event → Option Ray
  | Event.scene_hit r => some r
  | Event.shadow_hit r => some r
  | _ => none

/-- Number of scene intersection queries on traced rays in a log. -/
def primary_queries (l : List Event) : Nat := l.countP Event.isPrimary

/-- The call belongs to the direct-lighting stage: it is not a query on a traced ray, and if it
is a shadow-ray query the ray has depth 0. -/
def Event.fromDirectStage (e : Event) : Prop :=
  e.isPrimary = false ∧ ∀ r, e.queried = some r → r.depth = 0

/-- Every scene intersection query in the log was made on a ray within the depth limit. -/
def queries_within (max_depth : Nat) (l : List Event) : Prop :=
  ∀ e ∈ l, ∀ r, e.queried = some r → r.depth ≤ max_depth

/-! ## More of the concrete scene -/

/-- Length of a vector lying along a coordinate axis; on such vectors it is `Vec3::norm`. -/
def ex_axis_norm (v : Vec3) : ℚ := |v.x| + |v.y| + |v.z|

/-- A light straight above the floor, five units away, whose samples report the direction
`(0, 2, 0)` of length 2. -/
def ex_light_long : Light (List ℚ) where
  is_discrete := true
  sample := fun _ rng => (⟨⟨1, 1, 1⟩, ⟨0, 2, 0⟩, 5, 1⟩, rng)

/-- The example scene lit by the light whose sample direction has length 2. -/
def ex_env_long : Env (List ℚ) :=
  { ex_env with lights := [ex_light_long], norm := ex_axis_norm }

/-- The example scene under a constant sky with `n_area_samples = 2^32 + 1`. -/
def ex_env_huge : Env (List ℚ) :=
  { ex_env with env_light := some ex_sky, n_area_samples := 2 ^ 32 + 1 }

/-- The example scene with the normal-colour debug flag set. -/
def ex_env_debug : Env (List ℚ) := { ex_env with normal_colors := true }

/-! ## Unfolding lemmas for `trace_ray` -/

theorem trace_ray_exceeded (env : Env σ) (ray : Ray) (s : St σ)
    (h : env.max_depth < ray.depth) : trace_ray env ray s = (Spectrum.zero, s) := by
  rw [trace_ray]
  simp [h]

theorem trace_ray_miss_none (env : Env σ) (ray : Ray) (s : St σ)
    (h : ray.depth ≤ env.max_depth) (hm : (env.scene_hit ray).hit = false)
    (he : env.env_light = none) :
    trace_ray env ray s = (Spectrum.zero, ⟨s.rng, s.log ++ [Event.scene_hit ray]⟩) := by
  rw [trace_ray]
  simp [Nat.not_lt.mpr h, hm, he, St.emit]

theorem trace_ray_miss_some (env : Env σ) (ray : Ray) (s : St σ) (e : Env_Light σ)
    (h : ray.depth ≤ env.max_depth) (hm : (env.scene_hit ray).hit = false)
    (he : env.env_light = some e) :
    trace_ray env ray s = (e.sample_direction ray.dir,
      ⟨s.rng, s.log ++ [Event.scene_hit ray, Event.env_sample_direction ray.dir]⟩) := by
  rw [trace_ray]
  simp [Nat.not_lt.mpr h, hm, he, St.emit]

theorem trace_ray_debug (env : Env σ) (ray : Ray) (s : St σ)
    (h : ray.depth ≤ env.max_depth) (hm : (env.scene_hit ray).hit = true)
    (hn : env.normal_colors = true) :
    trace_ray env ray s =
      (env.direction (shading_hit env ray).normal, ⟨s.rng, s.log ++ [Event.scene_hit ray]⟩) := by
  rw [trace_ray]
  simp [Nat.not_lt.mpr h, hm, hn, St.emit]

theorem trace_ray_hit (env : Env σ) (ray : Ray) (s : St σ)
    (h : ray.depth ≤ env.max_depth) (hm : (env.scene_hit ray).hit = true)
    (hn : env.normal_colors = false) :
    trace_ray env ray s =
      let bsdf := env.materials (env.scene_hit ray).material
      let bs := bsdf.sample (out_dir env ray) s.rng
      let s2 : St σ := ⟨bs.2, s.log ++ [Event.scene_hit ray,
        Event.bsdf_sample (env.scene_hit ray).material (out_dir env ray)]⟩
      let direct := direct_lighting env bsdf (shading_hit env ray) (world_to_object env ray)
        (out_dir env ray) (bs.1.emissive, s2)
      let u := env.rng_unit direct.2.rng
      let s3 : St σ := ⟨u.2, direct.2.log ++ [Event.rng_unit]⟩
      if u.1 > roulette_prob env bs.1 then (direct.1, s3) else
      let incoming := trace_ray env
        (bounced_ray env ray (shading_hit env ray) (object_to_world env ray) bs.1) s3
      (direct.1.add (indirect_term bs.1 incoming.1 (roulette_prob env bs.1)), incoming.2) := by
  rw [trace_ray]
  simp [Nat.not_lt.mpr h, hm, hn, St.emit, St.withRng]

/-! ## Spectrum arithmetic lemmas -/

theorem Spectrum.add_zero_right (a : Spectrum) : a.add Spectrum.zero = a := by
  cases a; simp [Spectrum.add, Spectrum.zero]

theorem Spectrum.nonneg_zero : Spectrum.zero.nonneg := by
  simp [Spectrum.nonneg, Spectrum.zero]

theorem Spectrum.nonneg_add {a b : Spectrum} (ha : a.nonneg) (hb : b.nonneg) :
    (a.add b).nonneg :=
  ⟨add_nonneg ha.1 hb.1, add_nonneg ha.2.1 hb.2.1, add_nonneg ha.2.2 hb.2.2⟩

theorem Spectrum.nonneg_mul {a b : Spectrum} (ha : a.nonneg) (hb : b.nonneg) :
    (a.mul b).nonneg :=
  ⟨mul_nonneg ha.1 hb.1, mul_nonneg ha.2.1 hb.2.1, mul_nonneg ha.2.2 hb.2.2⟩

theorem Spectrum.nonneg_scale {k : ℚ} {a : Spectrum} (hk : 0 ≤ k) (ha : a.nonneg) :
    (Spectrum.scale k a).nonneg :=
  ⟨mul_nonneg hk ha.1, mul_nonneg hk ha.2.1, mul_nonneg hk ha.2.2⟩

theorem Spectrum.nonneg_muls {k : ℚ} {a : Spectrum} (hk : 0 ≤ k) (ha : a.nonneg) :
    (a.muls k).nonneg :=
  ⟨mul_nonneg ha.1 hk, mul_nonneg ha.2.1 hk, mul_nonneg ha.2.2 hk⟩

theorem Spectrum.nonneg_divs {k : ℚ} {a : Spectrum} (hk : 0 ≤ k) (ha : a.nonneg) :
    (a.divs k).nonneg :=
  ⟨div_nonneg ha.1 hk, div_nonneg ha.2.1 hk, div_nonneg ha.2.2 hk⟩

theorem indirect_term_zero (bs : BSDF_Sample) (p : ℚ) :
    indirect_term bs Spectrum.zero p = Spectrum.zero := by
  simp [indirect_term, Spectrum.mul, Spectrum.muls, Spectrum.divs, Spectrum.zero]

theorem roulette_prob_cases (env : Env σ) (bs : BSDF_Sample) :
    roulette_prob env bs = 1 / 2 ∨ roulette_prob env bs = 1 := by
  unfold roulette_prob
  split_ifs
  · exact Or.inl rfl
  · exact Or.inr rfl

theorem roulette_prob_pos (env : Env σ) (bs : BSDF_Sample) : 0 < roulette_prob env bs := by
  rcases roulette_prob_cases env bs with h | h <;> rw [h] <;> norm_num

/-! ## The loop of `sample_light` -/

/-- What one iteration of `sample_light` does, case by case. -/
theorem sample_light_iter_cases (env : Env σ) (hit : Trace) (w2o : Mat4) (odir : Vec3)
    (samples : Int) (light : Light σ) (acc : Spectrum × St σ) :
    let ls := light.sample hit.position acc.2.rng
    let in_dir := w2o.rotate ls.1.direction
    let absorbsion := (env.materials hit.material).evaluate odir in_dir
    let shadow := shadow_ray env hit.position ls.1
    let e1 := Event.light_sample hit.position
    let e2 := Event.bsdf_evaluate hit.material odir in_dir
    let e3 := Event.shadow_hit shadow
    (in_dir.y ≤ 0 → sample_light_iter env hit w2o odir samples light acc =
        (acc.1, ⟨ls.2, acc.2.log ++ [e1]⟩)) ∧
    (0 < in_dir.y → env.luma absorbsion = 0 →
      sample_light_iter env hit w2o odir samples light acc =
        (acc.1, ⟨ls.2, acc.2.log ++ [e1, e2]⟩)) ∧
    (0 < in_dir.y → env.luma absorbsion ≠ 0 → (env.scene_hit shadow).hit = true →
      sample_light_iter env hit w2o odir samples light acc =
        (acc.1, ⟨ls.2, acc.2.log ++ [e1, e2, e3]⟩)) ∧
    (0 < in_dir.y → env.luma absorbsion ≠ 0 → (env.scene_hit shadow).hit = false →
      sample_light_iter env hit w2o odir samples light acc =
        (acc.1.add (light_term env samples in_dir.y ls.1 absorbsion),
          ⟨ls.2, acc.2.log ++ [e1, e2, e3]⟩)) := by
  refine ⟨?_, ?_, ?_, ?_⟩
  · intro h
    simp [sample_light_iter, h, St.emit, St.withRng]
  · intro h hl
    simp [sample_light_iter, not_le.mpr h, hl, St.emit, St.withRng]
  · intro h hl hs
    simp [sample_light_iter, not_le.mpr h, hl, hs, St.emit, St.withRng]
  · intro h hl hs
    simp [sample_light_iter, not_le.mpr h, hl, hs, St.emit, St.withRng]

/-- One iteration only appends to the log. -/
theorem sample_light_iter_log (env : Env σ) (hit : Trace) (w2o : Mat4) (odir : Vec3)
    (samples : Int) (light : Light σ) (acc : Spectrum × St σ) :
    ∃ l, (sample_light_iter env hit w2o odir samples light acc).2.log = acc.2.log ++ l := by
  unfold sample_light_iter
  simp only [St.emit, St.withRng]
  split_ifs
  · exact ⟨_, rfl⟩
  · exact ⟨_, by rw [List.append_assoc]⟩
  · exact ⟨_, by rw [List.append_assoc, List.append_assoc]⟩
  · exact ⟨_, by rw [List.append_assoc, List.append_assoc]⟩

theorem sample_light_loop_log (env : Env σ) (hit : Trace) (w2o : Mat4) (odir : Vec3)
    (samples : Int) (light : Light σ) (n : Nat) (acc : Spectrum × St σ) :
    ∃ l, (sample_light_loop env hit w2o odir samples light n acc).2.log = acc.2.log ++ l := by
  induction n generalizing acc with
  | zero => exact ⟨[], by simp [sample_light_loop]⟩
  | succ n ih =>
    obtain ⟨l1, h1⟩ := sample_light_iter_log env hit w2o odir samples light acc
    obtain ⟨l2, h2⟩ := ih (sample_light_iter env hit w2o odir samples light acc)
    exact ⟨l1 ++ l2, by simp [sample_light_loop, h2, h1]⟩

theorem sample_light_log (env : Env σ) (hit : Trace) (w2o : Mat4) (odir : Vec3)
    (light : Light σ) (acc : Spectrum × St σ) :
    ∃ l, (sample_light env hit w2o odir light acc).2.log = acc.2.log ++ l :=
  sample_light_loop_log env hit w2o odir _ light _ acc

theorem sample_lights_log (env : Env σ) (hit : Trace) (w2o : Mat4) (odir : Vec3)
    (ls : List (Light σ)) (acc : Spectrum × St σ) :
    ∃ l, (sample_lights env hit w2o odir ls acc).2.log = acc.2.log ++ l := by
  induction ls generalizing acc with
  | nil => exact ⟨[], by simp [sample_lights]⟩
  | cons a ls ih =>
    obtain ⟨l1, h1⟩ := sample_light_log env hit w2o odir a acc
    obtain ⟨l2, h2⟩ := ih (sample_light env hit w2o odir a acc)
    exact ⟨l1 ++ l2, by simp [sample_lights, h2, h1]⟩

theorem direct_lighting_log (env : Env σ) (mat : BSDF σ) (hit : Trace) (w2o : Mat4)
    (odir : Vec3) (acc : Spectrum × St σ) :
    ∃ l, (direct_lighting env mat hit w2o odir acc).2.log = acc.2.log ++ l := by
  unfold direct_lighting
  split_ifs
  · obtain ⟨l1, h1⟩ := sample_lights_log env hit w2o odir env.lights acc
    cases he : env.env_light with
    | none => exact ⟨l1, by simp [h1]⟩
    | some e =>
      obtain ⟨l2, h2⟩ := sample_light_log env hit w2o odir e.toLight
        (sample_lights env hit w2o odir env.lights acc)
      exact ⟨l1 ++ l2, by simp [h2, h1]⟩
  · exact ⟨[], by simp⟩

/-- A discrete reflectance model skips the direct-lighting stage. -/
theorem direct_lighting_discrete (env : Env σ) (mat : BSDF σ) (hit : Trace) (w2o : Mat4)
    (odir : Vec3) (acc : Spectrum × St σ) (hd : mat.is_discrete = true) :
    direct_lighting env mat hit w2o odir acc = acc := by
  simp [direct_lighting, hd]

/-- An iteration whose shadow ray is occluded leaves `radiance_out` as it was. -/
theorem sample_light_iter_occluded (env : Env σ) (hit : Trace) (w2o : Mat4) (odir : Vec3)
    (samples : Int) (light : Light σ) (acc : Spectrum × St σ)
    (hocc : (env.scene_hit (shadow_ray env hit.position
      (light.sample hit.position acc.2.rng).1)).hit = true) :
    (sample_light_iter env hit w2o odir samples light acc).1 = acc.1 := by
  unfold sample_light_iter
  simp only [St.emit, St.withRng]
  split_ifs <;> rfl

theorem sample_light_loop_occluded (env : Env σ) (hit : Trace) (w2o : Mat4) (odir : Vec3)
    (samples : Int) (light : Light σ)
    (hocc : ∀ rng, (env.scene_hit (shadow_ray env hit.position
      (light.sample hit.position rng).1)).hit = true)
    (n : Nat) (acc : Spectrum × St σ) :
    (sample_light_loop env hit w2o odir samples light n acc).1 = acc.1 := by
  induction n generalizing acc with
  | zero => rfl
  | succ n ih =>
    rw [sample_light_loop, ih]
    exact sample_light_iter_occluded env hit w2o odir samples light acc (hocc _)

/-! ## Non-negativity of the accumulated radiance -/

theorem fdiv_of_ne (env : Env σ) (a b : ℚ) (hb : b ≠ 0) : fdiv env a b = a / b := by
  simp [fdiv, hb]

theorem light_term_nonneg (env : Env σ) (samples : Int) (cos_theta : ℚ)
    (sample : Light_Sample) (absorbsion : Spectrum) (hs : 0 < samples) (hc : 0 < cos_theta)
    (hr : sample.radiance.nonneg) (hp : 0 < sample.pdf) (ha : absorbsion.nonneg) :
    (light_term env samples cos_theta sample absorbsion).nonneg := by
  unfold light_term
  have hs1 : (0 : ℚ) < (samples : ℚ) := by exact_mod_cast hs
  have hd : (0 : ℚ) < (samples : ℚ) * sample.pdf := mul_pos hs1 hp
  refine Spectrum.nonneg_mul (Spectrum.nonneg_scale ?_ hr) ha
  rw [fdiv_of_ne env _ _ (ne_of_gt hd)]
  exact div_nonneg hc.le hd.le

theorem sample_light_iter_nonneg (env : Env σ) (hit : Trace) (w2o : Mat4) (odir : Vec3)
    (samples : Int) (light : Light σ) (acc : Spectrum × St σ)
    (he : ∀ m o i, ((env.materials m).evaluate o i).nonneg) (hl : light.wellBehaved)
    (hs : 0 < samples) (ha : acc.1.nonneg) :
    (sample_light_iter env hit w2o odir samples light acc).1.nonneg := by
  unfold sample_light_iter
  simp only [St.emit, St.withRng]
  split_ifs with h1 h2 h3
  · exact ha
  · exact ha
  · exact ha
  · exact Spectrum.nonneg_add ha
      (light_term_nonneg env _ _ _ _ hs (not_le.mp h1) (hl _ _).1 (hl _ _).2 (he _ _ _))

theorem sample_light_loop_nonneg (env : Env σ) (hit : Trace) (w2o : Mat4) (odir : Vec3)
    (samples : Int) (light : Light σ)
    (he : ∀ m o i, ((env.materials m).evaluate o i).nonneg) (hl : light.wellBehaved)
    (n : Nat) (hn : n ≤ samples.toNat) (acc : Spectrum × St σ) (ha : acc.1.nonneg) :
    (sample_light_loop env hit w2o odir samples light n acc).1.nonneg := by
  induction n generalizing acc with
  | zero => exact ha
  | succ n ih =>
    rw [sample_light_loop]
    exact ih (by omega) _
      (sample_light_iter_nonneg env hit w2o odir samples light acc he hl (by omega) ha)

theorem sample_lights_nonneg (env : Env σ) (hit : Trace) (w2o : Mat4) (odir : Vec3)
    (he : ∀ m o i, ((env.materials m).evaluate o i).nonneg)
    (ls : List (Light σ)) (hls : ∀ l ∈ ls, l.wellBehaved)
    (acc : Spectrum × St σ) (ha : acc.1.nonneg) :
    (sample_lights env hit w2o odir ls acc).1.nonneg := by
  induction ls generalizing acc with
  | nil => exact ha
  | cons a ls ih =>
    rw [sample_lights]
    refine ih (fun l hl => hls l (List.mem_cons_of_mem _ hl)) _ ?_
    exact sample_light_loop_nonneg env hit w2o odir _ a he (hls a (List.mem_cons_self _ _)) _
      le_rfl acc ha

theorem direct_lighting_nonneg (env : Env σ) (hw : env.wellBehaved) (mat : BSDF σ)
    (hit : Trace) (w2o : Mat4) (odir : Vec3) (acc : Spectrum × St σ) (ha : acc.1.nonneg) :
    (direct_lighting env mat hit w2o odir acc).1.nonneg := by
  unfold direct_lighting
  split_ifs
  · have h1 := sample_lights_nonneg env hit w2o odir hw.bsdf_evaluate env.lights hw.lights_ok
      acc ha
    cases he : env.env_light with
    | none => exact h1
    | some e =>
      exact sample_light_loop_nonneg env hit w2o odir _ e.toLight hw.bsdf_evaluate
        (hw.env_light_ok e he) _ le_rfl _ h1
  · exact ha

theorem indirect_term_nonneg (bs : BSDF_Sample) (incoming : Spectrum) (p : ℚ)
    (ha : bs.attenuation.nonneg) (hi : incoming.nonneg) (hpdf : 0 < bs.pdf) (hp : 0 < p) :
    (indirect_term bs incoming p).nonneg := by
  unfold indirect_term
  exact Spectrum.nonneg_divs (mul_pos hpdf hp).le
    (Spectrum.nonneg_muls (abs_nonneg _) (Spectrum.nonneg_mul ha hi))

/-- Non-negativity of `trace_ray`, by induction on the number of bounces left. -/
theorem trace_ray_nonneg_aux (env : Env σ) (hw : env.wellBehaved)
    (hn : env.normal_colors = false) (n : Nat) :
    ∀ (ray : Ray) (s : St σ), env.max_depth + 1 - ray.depth ≤ n →
      (trace_ray env ray s).1.nonneg := by
  induction n with
  | zero =>
    intro ray s hle
    rw [trace_ray_exceeded env ray s (by omega)]
    exact Spectrum.nonneg_zero
  | succ n ih =>
    intro ray s hle
    by_cases hd : env.max_depth < ray.depth
    · rw [trace_ray_exceeded env ray s hd]
      exact Spectrum.nonneg_zero
    have hd2 : ray.depth ≤ env.max_depth := Nat.not_lt.mp hd
    cases hm : (env.scene_hit ray).hit with
    | false =>
      cases he : env.env_light with
      | none =>
        rw [trace_ray_miss_none env ray s hd2 hm he]
        exact Spectrum.nonneg_zero
      | some e =>
        rw [trace_ray_miss_some env ray s e hd2 hm he]
        exact hw.env_direction e he _
    | true =>
      rw [trace_ray_hit env ray s hd2 hm hn]
      simp only []
      have hdirect := direct_lighting_nonneg env hw
        (env.materials (env.scene_hit ray).material) (shading_hit env ray)
        (world_to_object env ray) (out_dir env ray)
        (((env.materials (env.scene_hit ray).material).sample (out_dir env ray) s.rng).1.emissive,
          ⟨((env.materials (env.scene_hit ray).material).sample (out_dir env ray) s.rng).2,
            s.log ++ [Event.scene_hit ray,
              Event.bsdf_sample (env.scene_hit ray).material (out_dir env ray)]⟩)
        (hw.bsdf_emissive _ _ _)
      split_ifs
      · exact hdirect
      · refine Spectrum.nonneg_add hdirect ?_
        refine indirect_term_nonneg _ _ _ (hw.bsdf_attenuation _ _ _) ?_ (hw.bsdf_pdf _ _ _)
          (roulette_prob_pos env _)
        apply ih
        simp only [bounced_ray]
        omega

/-- Every call of `trace_ray` only appends to the log. -/
theorem trace_ray_log_aux (env : Env σ) (n : Nat) :
    ∀ (ray : Ray) (s : St σ), env.max_depth + 1 - ray.depth ≤ n →
      ∃ l, (trace_ray env ray s).2.log = s.log ++ l := by
  induction n with
  | zero =>
    intro ray s hle
    rw [trace_ray_exceeded env ray s (by omega)]
    exact ⟨[], by simp⟩
  | succ n ih =>
    intro ray s hle
    by_cases hd : env.max_depth < ray.depth
    · rw [trace_ray_exceeded env ray s hd]
      exact ⟨[], by simp⟩
    have hd2 : ray.depth ≤ env.max_depth := Nat.not_lt.mp hd
    cases hm : (env.scene_hit ray).hit with
    | false =>
      cases he : env.env_light with
      | none =>
        rw [trace_ray_miss_none env ray s hd2 hm he]
        exact ⟨_, rfl⟩
      | some e =>
        rw [trace_ray_miss_some env ray s e hd2 hm he]
        exact ⟨_, rfl⟩
    | true =>
      cases hn : env.normal_colors with
      | true =>
        rw [trace_ray_debug env ray s hd2 hm hn]
        exact ⟨_, rfl⟩
      | false =>
        rw [trace_ray_hit env ray s hd2 hm hn]
        simp only []
        obtain ⟨l1, h1⟩ := direct_lighting_log env
          (env.materials (env.scene_hit ray).material) (shading_hit env ray)
          (world_to_object env ray) (out_dir env ray)
          (((env.materials (env.scene_hit ray).material).sample (out_dir env ray)
            s.rng).1.emissive,
            ⟨((env.materials (env.scene_hit ray).material).sample (out_dir env ray) s.rng).2,
              s.log ++ [Event.scene_hit ray,
                Event.bsdf_sample (env.scene_hit ray).material (out_dir env ray)]⟩)
        simp only [] at h1
        generalize direct_lighting env _ _ _ _ _ = D at h1 ⊢
        split_ifs
        · exact ⟨_, by rw [h1, List.append_assoc, List.append_assoc]⟩
        · obtain ⟨l2, h2⟩ := ih (bounced_ray env ray (shading_hit env ray)
            (object_to_world env ray)
            ((env.materials (env.scene_hit ray).material).sample (out_dir env ray) s.rng).1)
            ⟨(env.rng_unit D.2.rng).2, D.2.log ++ [Event.rng_unit]⟩
            (by simp only [bounced_ray]; omega)
          simp only [] at h2
          exact ⟨_, by rw [h2, h1, List.append_assoc, List.append_assoc, List.append_assoc]⟩

theorem trace_ray_log (env : Env σ) (ray : Ray) (s : St σ) :
    ∃ l, (trace_ray env ray s).2.log = s.log ++ l :=
  trace_ray_log_aux env _ ray s le_rfl

theorem shading_hit_material (env : Env σ) (ray : Ray) :
    (shading_hit env ray).material = (env.scene_hit ray).material := by
  unfold shading_hit flip_normal
  split_ifs <;> rfl

theorem shading_hit_position (env : Env σ) (ray : Ray) :
    (shading_hit env ray).position = (env.scene_hit ray).position := by
  unfold shading_hit flip_normal
  split_ifs <;> rfl

/-- A ray within the depth limit starts by querying the scene. -/
theorem trace_ray_queries_scene (env : Env σ) (ray : Ray) (s : St σ)
    (h : ray.depth ≤ env.max_depth) :
    ∃ l, (trace_ray env ray s).2.log = s.log ++ Event.scene_hit ray :: l := by
  cases hm : (env.scene_hit ray).hit with
  | false =>
    cases he : env.env_light with
    | none =>
      rw [trace_ray_miss_none env ray s h hm he]
      exact ⟨_, rfl⟩
    | some e =>
      rw [trace_ray_miss_some env ray s e h hm he]
      exact ⟨_, rfl⟩
  | true =>
    cases hn : env.normal_colors with
    | true =>
      rw [trace_ray_debug env ray s h hm hn]
      exact ⟨_, rfl⟩
    | false =>
      rw [trace_ray_hit env ray s h hm hn]
      simp only []
      obtain ⟨l1, h1⟩ := direct_lighting_log env
        (env.materials (env.scene_hit ray).material) (shading_hit env ray)
        (world_to_object env ray) (out_dir env ray)
        (((env.materials (env.scene_hit ray).material).sample (out_dir env ray)
          s.rng).1.emissive,
          ⟨((env.materials (env.scene_hit ray).material).sample (out_dir env ray) s.rng).2,
            s.log ++ [Event.scene_hit ray,
              Event.bsdf_sample (env.scene_hit ray).material (out_dir env ray)]⟩)
      simp only [] at h1
      generalize direct_lighting env _ _ _ _ _ = D at h1 ⊢
      split_ifs
      · exact ⟨_, by rw [h1, List.append_assoc, List.append_assoc]; rfl⟩
      · obtain ⟨l2, h2⟩ := trace_ray_log env (bounced_ray env ray (shading_hit env ray)
          (object_to_world env ray)
          ((env.materials (env.scene_hit ray).material).sample (out_dir env ray) s.rng).1)
          ⟨(env.rng_unit D.2.rng).2, D.2.log ++ [Event.rng_unit]⟩
        simp only [] at h2
        exact ⟨_, by rw [h2, h1, List.append_assoc, List.append_assoc, List.append_assoc]; rfl⟩

/-! ## The claims -/

/-- C1: a ray whose depth is strictly greater than `max_depth` makes `trace_ray` return the
zero spectrum at once, with the state as it was: the random source is untouched and the log
gains no event, so no scene query, reflectance sample, light sample or random draw happens,
whatever the scene, materials and lights are. -/
theorem trace_ray_depth_cutoff (env : Env σ) (ray : Ray) (s : St σ)
    (h : env.max_depth < ray.depth) : trace_ray env ray s = (Spectrum.zero, s) :=
  trace_ray_exceeded env ray s h

theorem trace_ray_depth_cutoff_witness :
    ex_env.max_depth < ex_ray_deep.depth ∧
      trace_ray ex_env ex_ray_deep ex_st = (Spectrum.zero, ex_st) :=
  ⟨by decide, trace_ray_depth_cutoff ex_env ex_ray_deep ex_st (by decide)⟩

/-- C2: a ray with depth at most `max_depth` that misses all geometry returns exactly the zero
spectrum when no environment light is configured, and exactly
`env_light.sample_direction(ray.dir)` when one is. In both cases the random source is left as
it was and the only calls logged are the scene query (and the environment lookup), so no
reflectance model or light is sampled and no random draw is made. -/
theorem trace_ray_miss (env : Env σ) (ray : Ray) (s : St σ)
    (h : ray.depth ≤ env.max_depth) (hm : (env.scene_hit ray).hit = false) :
    (env.env_light = none →
      trace_ray env ray s = (Spectrum.zero, ⟨s.rng, s.log ++ [Event.scene_hit ray]⟩)) ∧
    (∀ e, env.env_light = some e →
      trace_ray env ray s = (e.sample_direction ray.dir,
        ⟨s.rng, s.log ++ [Event.scene_hit ray, Event.env_sample_direction ray.dir]⟩)) :=
  ⟨fun he => trace_ray_miss_none env ray s h hm he,
   fun e he => trace_ray_miss_some env ray s e h hm he⟩

theorem trace_ray_miss_witness :
    trace_ray ex_env ex_ray_up ex_st =
      (Spectrum.zero, ⟨ex_st.rng, [Event.scene_hit ex_ray_up]⟩) ∧
    trace_ray ex_env_sky ex_ray_up ex_st =
      (⟨1, 1, 1⟩, ⟨ex_st.rng,
        [Event.scene_hit ex_ray_up, Event.env_sample_direction ex_ray_up.dir]⟩) :=
  ⟨(trace_ray_miss ex_env ex_ray_up ex_st (by decide) (by decide)).1 rfl,
   (trace_ray_miss ex_env_sky ex_ray_up ex_st (by decide) (by decide)).2 ex_sky rfl⟩

/-- C3: when the hit surface's reflectance model is discrete (depth within the limit, debug
flag off), the direct-lighting stage is skipped: between the reflectance sample and the
roulette draw no light is sampled and no shadow ray is cast. The value returned is the
sample's emissive term when roulette ends the path, and the emissive term plus the
indirect-bounce term otherwise. -/
theorem trace_ray_discrete (env : Env σ) (ray : Ray) (s : St σ)
    (h : ray.depth ≤ env.max_depth) (hm : (env.scene_hit ray).hit = true)
    (hn : env.normal_colors = false)
    (hd : (env.materials (env.scene_hit ray).material).is_discrete = true) :
    let bsdf := env.materials (env.scene_hit ray).material
    let bs := bsdf.sample (out_dir env ray) s.rng
    let u := env.rng_unit bs.2
    let s3 : St σ := ⟨u.2, s.log ++ [Event.scene_hit ray,
      Event.bsdf_sample (env.scene_hit ray).material (out_dir env ray), Event.rng_unit]⟩
    let incoming := trace_ray env
      (bounced_ray env ray (shading_hit env ray) (object_to_world env ray) bs.1) s3
    trace_ray env ray s =
      if u.1 > roulette_prob env bs.1 then (bs.1.emissive, s3)
      else (bs.1.emissive.add (indirect_term bs.1 incoming.1 (roulette_prob env bs.1)),
        incoming.2) := by
  rw [trace_ray_hit env ray s h hm hn]
  simp [direct_lighting_discrete, hd]

theorem trace_ray_discrete_witness :
    trace_ray ex_env_mirror ex_ray_down ex_st =
      (⟨1, 0, 0⟩, ⟨[3 / 4, 1 / 2], [Event.scene_hit ex_ray_down,
        Event.bsdf_sample 0 (out_dir ex_env_mirror ex_ray_down), Event.rng_unit]⟩) := by
  have h := trace_ray_discrete ex_env_mirror ex_ray_down ex_st (by decide) (by decide) rfl rfl
  simp only [] at h
  rw [h, trace_ray_exceeded _ _ _ (by decide)]
  simp [ex_env_mirror, ex_env, ex_mirror, ex_st, ex_floor, ex_ray_down, roulette_prob,
    indirect_term, Spectrum.mul, Spectrum.muls, Spectrum.divs, Spectrum.zero, Spectrum.add]

/-- C4: if every shadow ray that can be cast from the hit point toward a light reports an
intersection, `sample_light` leaves `radiance_out` exactly as it was for that light, whatever
the light's radiance, pdf and distance and the reflectance throughput are. -/
theorem sample_light_fully_occluded (env : Env σ) (hit : Trace) (w2o : Mat4) (odir : Vec3)
    (light : Light σ) (acc : Spectrum × St σ)
    (hocc : ∀ rng, (env.scene_hit (shadow_ray env hit.position
      (light.sample hit.position rng).1)).hit = true) :
    (sample_light env hit w2o odir light acc).1 = acc.1 :=
  sample_light_loop_occluded env hit w2o odir _ light hocc _ acc

theorem sample_light_fully_occluded_witness :
    (sample_light ex_env_blocked (ex_env_blocked.scene_hit ex_ray_down) Mat4.I ⟨0, 1, 0⟩
      ex_light (⟨1, 2, 3⟩, ex_st)).1 = ⟨1, 2, 3⟩ :=
  sample_light_fully_occluded ex_env_blocked (ex_env_blocked.scene_hit ex_ray_down) Mat4.I
    ⟨0, 1, 0⟩ ex_light (⟨1, 2, 3⟩, ex_st) (fun _ => rfl)

/-- C5 (as stated, refuted): in the example scene with `max_depth = 0`, a depth-0 ray looking
down at the floor has depth equal to `max_depth`, yet `trace_ray` queries the scene for it
and returns the non-zero radiance `(1/4, 1/4, 1/4)`. -/
theorem trace_ray_at_max_depth_counterexample :
    ex_ray_down.depth = ex_env.max_depth ∧
    (trace_ray ex_env ex_ray_down ex_st).1 = ⟨1 / 4, 1 / 4, 1 / 4⟩ ∧
    (trace_ray ex_env ex_ray_down ex_st).1 ≠ Spectrum.zero ∧
    Event.scene_hit ex_ray_down ∈ (trace_ray ex_env ex_ray_down ex_st).2.log := by
  have h : trace_ray ex_env ex_ray_down ex_st =
      (⟨1 / 4, 1 / 4, 1 / 4⟩, ⟨[3 / 4, 1 / 2], [Event.scene_hit ex_ray_down,
        Event.bsdf_sample 0 ⟨0, 1, 0⟩, Event.light_sample ⟨0, 0, 0⟩,
        Event.bsdf_evaluate 0 ⟨0, 1, 0⟩ ⟨0, 1, 0⟩,
        Event.shadow_hit ⟨⟨0, 0, 0⟩, ⟨0, 1, 0⟩, ⟨1 / 1000, 5 - 1 / 1000⟩, 0⟩,
        Event.rng_unit]⟩) := by
    rw [trace_ray_hit _ _ _ (by decide) (by decide) rfl]
    simp only []
    rw [trace_ray_exceeded _ _ _ (by decide)]
    simp [ex_env, ex_bsdf, ex_light, ex_st, ex_floor, ex_ray_down, roulette_prob,
      indirect_term, Spectrum.mul, Spectrum.muls, Spectrum.divs, Spectrum.zero, Spectrum.add,
      Spectrum.scale, direct_lighting, sample_lights, sample_light, sample_light_loop,
      sample_light_iter, sample_count, to_int, light_term, fdiv, shadow_ray, Ray.mk2, out_dir,
      world_to_object, object_to_world, shading_hit, flip_normal, dot, Mat4.I, Mat4.T,
      Mat4.rotate, Vec3.sub, Vec3.neg, St.emit, St.withRng]
    norm_num
  rw [h]
  refine ⟨rfl, rfl, ?_, ?_⟩
  · simp [Spectrum.zero]
  · simp

/-- C5 (amended): a ray whose depth equals `max_depth` passes the depth check, so the first
thing `trace_ray` does for it is the scene intersection query on that ray. It is the ray
bounced from it, whose depth is `max_depth + 1`, for which `trace_ray` returns exactly the zero
spectrum with the state untouched, hence with no scene query. -/
theorem trace_ray_at_max_depth (env : Env σ) (ray : Ray) (s : St σ)
    (h : ray.depth = env.max_depth) :
    (∃ l, (trace_ray env ray s).2.log = s.log ++ Event.scene_hit ray :: l) ∧
    (∀ (hit : Trace) (o2w : Mat4) (bs : BSDF_Sample) (s1 : St σ),
      trace_ray env (bounced_ray env ray hit o2w bs) s1 = (Spectrum.zero, s1)) := by
  refine ⟨trace_ray_queries_scene env ray s (le_of_eq h), ?_⟩
  intro hit o2w bs s1
  apply trace_ray_exceeded
  simp only [bounced_ray]
  omega

theorem trace_ray_at_max_depth_witness :
    (∃ l, (trace_ray ex_env ex_ray_down ex_st).2.log =
      ex_st.log ++ Event.scene_hit ex_ray_down :: l) ∧
    (∀ (hit : Trace) (o2w : Mat4) (bs : BSDF_Sample) (s1 : St (List ℚ)),
      trace_ray ex_env (bounced_ray ex_env ex_ray_down hit o2w bs) s1 = (Spectrum.zero, s1)) :=
  trace_ray_at_max_depth ex_env ex_ray_down ex_st (by decide)

/-- The roulette weighting cancels: `pRR * (D + a*L*|y|/(p*pRR)) + (1 - pRR) * D` equals
`D + a*L*|y|/p`. -/
theorem roulette_identity (env : Env σ) (bs : BSDF_Sample) (D L : Spectrum)
    (hp : 0 < bs.pdf) :
    (Spectrum.scale (roulette_prob env bs)
        (D.add (indirect_term bs L (roulette_prob env bs)))).add
      (Spectrum.scale (1 - roulette_prob env bs) D) =
      D.add (((bs.attenuation.mul L).muls |bs.direction.y|).divs bs.pdf) := by
  have hp0 : bs.pdf ≠ 0 := ne_of_gt hp
  rcases roulette_prob_cases env bs with h | h <;> rw [h]
  · simp only [Spectrum.scale, Spectrum.add, indirect_term, Spectrum.divs, Spectrum.muls,
      Spectrum.mul, Spectrum.mk.injEq]
    refine ⟨?_, ?_, ?_⟩ <;> field_simp <;> ring
  · simp only [Spectrum.scale, Spectrum.add, indirect_term, Spectrum.divs, Spectrum.muls,
      Spectrum.mul, Spectrum.mk.injEq]
    refine ⟨?_, ?_, ?_⟩ <;> field_simp

/-- Mean over a uniform draw `u` on the unit interval of a quantity that is `k` when `u > p`
and `c` otherwise. -/
theorem uniform_step_integral (p c k : ℝ) (hp0 : 0 ≤ p) (hp1 : p ≤ 1) :
    ∫ u in (0 : ℝ)..1, (if u > p then k else c) = p * c + (1 - p) * k := by
  have e1 : ∀ x ∈ Set.uIoc 0 p,
      (fun _ : ℝ => c) x = (fun u : ℝ => if u > p then k else c) x := by
    intro x hx
    rw [Set.uIoc_of_le hp0] at hx
    simp [not_lt.mpr hx.2]
  have e2 : ∀ x ∈ Set.uIoc p 1,
      (fun _ : ℝ => k) x = (fun u : ℝ => if u > p then k else c) x := by
    intro x hx
    rw [Set.uIoc_of_le hp1] at hx
    simp [hx.1]
  have i1 : IntervalIntegrable (fun u : ℝ => if u > p then k else c) MeasureTheory.volume 0 p :=
    (intervalIntegrable_const (c := c)).congr
      ((MeasureTheory.ae_restrict_iff' measurableSet_uIoc).mpr (Filter.Eventually.of_forall e1))
  have i2 : IntervalIntegrable (fun u : ℝ => if u > p then k else c) MeasureTheory.volume p 1 :=
    (intervalIntegrable_const (c := k)).congr
      ((MeasureTheory.ae_restrict_iff' measurableSet_uIoc).mpr (Filter.Eventually.of_forall e2))
  have h1 : ∫ u in (0 : ℝ)..p, (if u > p then k else c) = ∫ _ in (0 : ℝ)..p, c :=
    intervalIntegral.integral_congr_ae
      (Filter.Eventually.of_forall (fun x hx => (e1 x hx).symm))
  have h2 : ∫ u in p..1, (if u > p then k else c) = ∫ _ in p..1, k :=
    intervalIntegral.integral_congr_ae
      (Filter.Eventually.of_forall (fun x hx => (e2 x hx).symm))
  rw [← intervalIntegral.integral_add_adjacent_intervals i1 i2, h1, h2]
  simp only [intervalIntegral.integral_const, smul_eq_mul]
  ring

/-- Channel by channel, the mean over a uniform roulette draw of the two possible results is
the unweighted estimate `D + a*L*|y|/p`. -/
theorem roulette_mean (env : Env σ) (bs : BSDF_Sample) (D L : Spectrum) (hp : 0 < bs.pdf)
    (ch : Spectrum → ℚ) (hch : ch = Spectrum.r ∨ ch = Spectrum.g ∨ ch = Spectrum.b) :
    ∫ u in (0 : ℝ)..1,
        (if u > ((roulette_prob env bs : ℚ) : ℝ) then ((ch D : ℚ) : ℝ)
          else ((ch (D.add (indirect_term bs L (roulette_prob env bs))) : ℚ) : ℝ)) =
      ((ch (D.add (((bs.attenuation.mul L).muls |bs.direction.y|).divs bs.pdf)) : ℚ) : ℝ) := by
  have h0 : (0 : ℝ) ≤ ((roulette_prob env bs : ℚ) : ℝ) := by
    exact_mod_cast (roulette_prob_pos env bs).le
  have h1 : ((roulette_prob env bs : ℚ) : ℝ) ≤ 1 := by
    have : roulette_prob env bs ≤ 1 := by
      rcases roulette_prob_cases env bs with h | h
      · rw [h]
        norm_num
      · exact le_of_eq h
    exact_mod_cast this
  rw [uniform_step_integral _ _ _ h0 h1, ← roulette_identity env bs D L hp]
  rcases hch with h | h | h <;> subst h <;>
    (simp only [Spectrum.add, Spectrum.scale]; push_cast; ring)

/-- C6: Russian roulette preserves the expected value. At a hit (debug flag off) with
accumulated emissive-plus-direct radiance `D`, reflectance sample `bs` of pdf `p > 0` and
incoming radiance `L` from the bounced ray, the continuation probability `pRR` is 1 when the
attenuation luma is at least 0.3 and 0.5 when it is below; `trace_ray` returns `D` when the
draw exceeds `pRR` and `D + a*L*|y|/(p*pRR)` otherwise; the identity
`pRR*(D + a*L*|y|/(p*pRR)) + (1-pRR)*D = D + a*L*|y|/p` holds; and in every channel the mean of
the result over a draw uniform on the unit interval is `D + a*L*|y|/p`. -/
theorem roulette_preserves_expectation (env : Env σ) (ray : Ray) (s : St σ)
    (h : ray.depth ≤ env.max_depth) (hm : (env.scene_hit ray).hit = true)
    (hn : env.normal_colors = false)
    (hp : 0 < ((env.materials (env.scene_hit ray).material).sample
      (out_dir env ray) s.rng).1.pdf) :
    let bsdf := env.materials (env.scene_hit ray).material
    let bs := bsdf.sample (out_dir env ray) s.rng
    let direct := direct_lighting env bsdf (shading_hit env ray) (world_to_object env ray)
      (out_dir env ray) (bs.1.emissive, ⟨bs.2, s.log ++ [Event.scene_hit ray,
        Event.bsdf_sample (env.scene_hit ray).material (out_dir env ray)]⟩)
    let u := env.rng_unit direct.2.rng
    let pRR := roulette_prob env bs.1
    let L := (trace_ray env
      (bounced_ray env ray (shading_hit env ray) (object_to_world env ray) bs.1)
      ⟨u.2, direct.2.log ++ [Event.rng_unit]⟩).1
    let unweighted :=
      direct.1.add (((bs.1.attenuation.mul L).muls |bs.1.direction.y|).divs bs.1.pdf)
    (3 / 10 ≤ env.luma bs.1.attenuation → pRR = 1) ∧
    (env.luma bs.1.attenuation < 3 / 10 → pRR = 1 / 2) ∧
    (u.1 > pRR → (trace_ray env ray s).1 = direct.1) ∧
    (¬ u.1 > pRR → (trace_ray env ray s).1 = direct.1.add (indirect_term bs.1 L pRR)) ∧
    (Spectrum.scale pRR (direct.1.add (indirect_term bs.1 L pRR))).add
        (Spectrum.scale (1 - pRR) direct.1) = unweighted ∧
    (∀ ch : Spectrum → ℚ, ch = Spectrum.r ∨ ch = Spectrum.g ∨ ch = Spectrum.b →
      ∫ v in (0 : ℝ)..1,
          (if v > ((pRR : ℚ) : ℝ) then ((ch direct.1 : ℚ) : ℝ)
            else ((ch (direct.1.add (indirect_term bs.1 L pRR)) : ℚ) : ℝ)) =
        ((ch unweighted : ℚ) : ℝ)) := by
  intro bsdf bs direct u pRR L unweighted
  refine ⟨fun h1 => by simp [pRR, roulette_prob, not_lt.mpr h1],
    fun h1 => by simp [pRR, roulette_prob, h1], ?_, ?_, roulette_identity env bs.1 _ L hp,
    fun ch hch => roulette_mean env bs.1 direct.1 L hp ch hch⟩
  · intro hu
    rw [trace_ray_hit env ray s h hm hn]
    simp only []
    rw [if_pos hu]
  · intro hu
    rw [trace_ray_hit env ray s h hm hn]
    simp only []
    rw [if_neg hu]

theorem roulette_preserves_expectation_witness :
    (trace_ray ex_env_sky2 ex_ray_down ex_st).1 = ⟨7 / 4, 7 / 4, 7 / 4⟩ := by
  have h := roulette_preserves_expectation ex_env_sky2 ex_ray_down ex_st (by decide)
    (by decide) rfl (by simp [ex_env_sky2, ex_env, ex_bsdf])
  simp only [] at h
  rw [h.2.2.2.1 (by
    simp [ex_env_sky2, ex_env, ex_bsdf, ex_st, roulette_prob, direct_lighting, sample_lights,
      sample_light, sample_light_loop, sample_light_iter, sample_count, to_int, ex_light, ex_sky,
      St.emit, St.withRng, ex_floor, shadow_ray, Ray.mk2, world_to_object, object_to_world,
      Mat4.I, Mat4.T, Mat4.rotate, shading_hit, flip_normal, ex_ray_down]
    norm_num)]
  rw [trace_ray_miss_some _ _ _ ex_sky (by decide)
    (by
      simp [ex_env_sky2, ex_env, ex_bsdf, ex_floor, bounced_ray, Ray.mk2, object_to_world,
        Mat4.I, Mat4.rotate]
      norm_num) rfl]
  simp [ex_env_sky2, ex_env, ex_bsdf, ex_st, roulette_prob, direct_lighting, sample_lights,
    sample_light, sample_light_loop, sample_light_iter, sample_count, to_int, ex_light, ex_sky,
    St.emit, St.withRng, ex_floor, shadow_ray, Ray.mk2, world_to_object, object_to_world,
    Mat4.I, Mat4.T, Mat4.rotate, shading_hit, flip_normal, ex_ray_down, indirect_term,
    light_term, fdiv, Spectrum.add, Spectrum.mul, Spectrum.muls, Spectrum.divs, Spectrum.scale]
  norm_num

/-- C7: with `max_depth = 0`, no environment light, the debug flag off and a single discrete
light, a depth-0 ray that hits a non-discrete surface whose reflectance sample has pdf > 0
returns exactly the emissive term plus the closed-form direct term
`cos_theta / light_pdf * light_radiance * bsdf.evaluate(out_dir, in_dir)` when `cos_theta > 0`,
the evaluated throughput has non-zero luma and the shadow ray is unoccluded, and plus zero
otherwise. The value does not depend on the roulette draw, since the bounced ray has depth 1
and contributes zero. The quotient is the `float` quotient of line 112, which is the exact
quotient whenever `light_pdf` is not zero. -/
theorem trace_ray_direct_only (env : Env σ) (ray : Ray) (s : St σ) (light : Light σ)
    (hmax : env.max_depth = 0) (hray : ray.depth = 0) (henv : env.env_light = none)
    (hn : env.normal_colors = false) (hl : env.lights = [light])
    (hld : light.is_discrete = true) (hh : (env.scene_hit ray).hit = true)
    (hnd : (env.materials (env.scene_hit ray).material).is_discrete = false)
    (hpdf : 0 < ((env.materials (env.scene_hit ray).material).sample
      (out_dir env ray) s.rng).1.pdf) :
    let bsdf := env.materials (env.scene_hit ray).material
    let bs := bsdf.sample (out_dir env ray) s.rng
    let ls := light.sample (env.scene_hit ray).position bs.2
    let in_dir := (world_to_object env ray).rotate ls.1.direction
    let cos_theta := in_dir.y
    let f := bsdf.evaluate (out_dir env ray) in_dir
    (trace_ray env ray s).1 = bs.1.emissive.add
      (if 0 < cos_theta ∧ env.luma f ≠ 0 ∧
          (env.scene_hit (shadow_ray env (env.scene_hit ray).position ls.1)).hit = false
        then (Spectrum.scale (fdiv env cos_theta ls.1.pdf) ls.1.radiance).mul f
        else Spectrum.zero) ∧
    (ls.1.pdf ≠ 0 →
      (trace_ray env ray s).1 = bs.1.emissive.add
        (if 0 < cos_theta ∧ env.luma f ≠ 0 ∧
            (env.scene_hit (shadow_ray env (env.scene_hit ray).position ls.1)).hit = false
          then (Spectrum.scale (cos_theta / ls.1.pdf) ls.1.radiance).mul f
          else Spectrum.zero)) := by
  intro bsdf bs ls in_dir cos_theta f
  have _ := hpdf
  suffices hmain : (trace_ray env ray s).1 = bs.1.emissive.add
      (if 0 < cos_theta ∧ env.luma f ≠ 0 ∧
          (env.scene_hit (shadow_ray env (env.scene_hit ray).position ls.1)).hit = false
        then (Spectrum.scale (fdiv env cos_theta ls.1.pdf) ls.1.radiance).mul f
        else Spectrum.zero) by
    refine ⟨hmain, fun hne => ?_⟩
    rw [hmain, fdiv_of_ne env _ _ hne]
  have hb : ∀ (h1 : Trace) (o : Mat4) (b : BSDF_Sample) (s1 : St σ),
      trace_ray env (bounced_ray env ray h1 o b) s1 = (Spectrum.zero, s1) := by
    intro h1 o b s1
    apply trace_ray_exceeded
    simp only [bounced_ray]
    omega
  rw [trace_ray_hit env ray s (by omega) hh hn]
  simp only [hb, indirect_term_zero, Spectrum.add_zero_right, apply_ite Prod.fst, ite_self]
  simp only [direct_lighting, hnd, hl, henv, sample_lights, sample_light, sample_count, to_int, hld,
    sample_light_loop, sample_light_iter, shading_hit_material, shading_hit_position,
    St.emit, St.withRng, light_term]
  simp only [Bool.not_false, if_true, Int.cast_one, one_mul, Int.toNat_one]
  by_cases h1 : cos_theta ≤ 0
  · have h1a : ¬ 0 < cos_theta := not_lt.mpr h1
    simp [h1, h1a, Spectrum.add_zero_right, cos_theta, in_dir, ls, bs, bsdf]
  · have h1a : 0 < cos_theta := not_le.mp h1
    by_cases h2 : env.luma f = 0
    · simp [h1, h2, Spectrum.add_zero_right, cos_theta, in_dir, ls, bs, bsdf, f]
    · cases h3 : (env.scene_hit (shadow_ray env (env.scene_hit ray).position ls.1)).hit
      · simp [h1, h1a, h2, h3, cos_theta, in_dir, ls, bs, bsdf, f]
      · simp [h1, h2, h3, Spectrum.add_zero_right, cos_theta, in_dir, ls, bs, bsdf, f]

theorem trace_ray_direct_only_witness :
    (trace_ray ex_env ex_ray_down ex_st).1 = ⟨1 / 4, 1 / 4, 1 / 4⟩ := by
  have h := trace_ray_direct_only ex_env ex_ray_down ex_st ex_light rfl rfl rfl rfl rfl rfl
    (by decide) rfl (by simp [ex_env, ex_bsdf])
  simp only [] at h
  rw [h.2 (by simp [ex_light])]
  simp [ex_env, ex_bsdf, ex_light, ex_st, ex_floor, ex_ray_down, Spectrum.mul, Spectrum.zero,
    Spectrum.add, Spectrum.scale, shadow_ray, Ray.mk2, world_to_object, object_to_world,
    Mat4.I, Mat4.T, Mat4.rotate]
  norm_num

theorem ex_env_sky2_wellBehaved : ex_env_sky2.wellBehaved where
  bsdf_emissive := by intro m d rng; simp [ex_env_sky2, ex_env, ex_bsdf, Spectrum.nonneg]
  bsdf_attenuation := by intro m d rng; simp [ex_env_sky2, ex_env, ex_bsdf, Spectrum.nonneg]
  bsdf_pdf := by intro m d rng; simp [ex_env_sky2, ex_env, ex_bsdf]
  bsdf_evaluate := by intro m o i; simp [ex_env_sky2, ex_env, ex_bsdf, Spectrum.nonneg]
  lights_ok := by
    intro l hl p rng
    simp only [ex_env_sky2, ex_env, List.mem_singleton] at hl
    subst hl
    simp [ex_light, Spectrum.nonneg]
  env_light_ok := by
    intro e he p rng
    simp only [ex_env_sky2, Option.some.injEq] at he
    subst he
    simp [ex_sky, Spectrum.nonneg]
  env_direction := by
    intro e he d
    simp only [ex_env_sky2, Option.some.injEq] at he
    subst he
    simp [ex_sky, Spectrum.nonneg]

/-- C9: if every collaborator returns component-wise non-negative spectra (emissive,
attenuation, evaluated throughput, light radiance, environment radiance) and every
light-sample pdf and reflectance-sample pdf is positive, then with the debug flag off every
component of the spectrum `trace_ray` returns is non-negative, for every ray and every state of
the random source. -/
theorem trace_ray_nonneg (env : Env σ) (hw : env.wellBehaved)
    (hn : env.normal_colors = false) (ray : Ray) (s : St σ) :
    (trace_ray env ray s).1.nonneg :=
  trace_ray_nonneg_aux env hw hn _ ray s le_rfl

theorem trace_ray_nonneg_witness :
    ex_env_sky2.wellBehaved ∧ ex_env_sky2.normal_colors = false ∧
      (trace_ray ex_env_sky2 ex_ray_down ex_st).1.nonneg :=
  ⟨ex_env_sky2_wellBehaved, rfl,
    trace_ray_nonneg ex_env_sky2 ex_env_sky2_wellBehaved rfl ex_ray_down ex_st⟩

/-- C10: in `trace_pixel`, when `n_samples = 1` no sampler draw is made and the camera is asked
for a ray at exactly `((x + 0.5)/out_w, (y + 0.5)/out_h)`. For every `n_samples`, every pixel
with `x < out_w`, `y < out_h` and every jitter offset in the unit square, the coordinate passed
to `camera.generate_ray` lies in the unit square. The value returned is `trace_ray` applied to
the ray the camera produced for that coordinate. -/
theorem trace_pixel_spec (env : Env σ) (x y : Nat) (s : St σ) :
    (env.n_samples = 1 →
      pixel_offset env s = (Vec2.splat (1 / 2), s) ∧
      pixel_ndc env x y s =
        ⟨((x : ℚ) + 1 / 2) / (env.out_w : ℚ), ((y : ℚ) + 1 / 2) / (env.out_h : ℚ)⟩) ∧
    (x < env.out_w → y < env.out_h →
      (0 ≤ (env.rect_uniform_sample s.rng).1.x ∧ (env.rect_uniform_sample s.rng).1.x ≤ 1 ∧
        0 ≤ (env.rect_uniform_sample s.rng).1.y ∧ (env.rect_uniform_sample s.rng).1.y ≤ 1) →
      0 ≤ (pixel_ndc env x y s).x ∧ (pixel_ndc env x y s).x ≤ 1 ∧
        0 ≤ (pixel_ndc env x y s).y ∧ (pixel_ndc env x y s).y ≤ 1) ∧
    (pixel_ray env x y s).1 =
      (env.camera_generate_ray (pixel_ndc env x y s) (pixel_offset env s).2.rng).1 ∧
    Event.generate_ray (pixel_ndc env x y s) ∈ (pixel_ray env x y s).2.log ∧
    trace_pixel env x y s = trace_ray env
      (env.camera_generate_ray (pixel_ndc env x y s) (pixel_offset env s).2.rng).1
      (pixel_ray env x y s).2 := by
  have hray : (pixel_ray env x y s).1 =
      (env.camera_generate_ray (pixel_ndc env x y s) (pixel_offset env s).2.rng).1 := by
    unfold pixel_ray
    simp only [St.emit, St.withRng]
    split_ifs <;> rfl
  refine ⟨?_, ?_, hray, ?_, ?_⟩
  · intro h1
    have ho : pixel_offset env s = (Vec2.splat (1 / 2), s) := by
      simp [pixel_offset, h1]
    refine ⟨ho, ?_⟩
    simp [pixel_ndc, ho, Vec2.add, Vec2.div, Vec2.splat]
  · intro hx hy hj
    have hw : (0 : ℚ) < env.out_w := by
      have : 0 < env.out_w := by omega
      exact_mod_cast this
    have hh : (0 : ℚ) < env.out_h := by
      have : 0 < env.out_h := by omega
      exact_mod_cast this
    have hx1 : (x : ℚ) + 1 ≤ env.out_w := by exact_mod_cast hx
    have hy1 : (y : ℚ) + 1 ≤ env.out_h := by exact_mod_cast hy
    have hx0 : (0 : ℚ) ≤ x := Nat.cast_nonneg x
    have hy0 : (0 : ℚ) ≤ y := Nat.cast_nonneg y
    have hoff : 0 ≤ (pixel_offset env s).1.x ∧ (pixel_offset env s).1.x ≤ 1 ∧
        0 ≤ (pixel_offset env s).1.y ∧ (pixel_offset env s).1.y ≤ 1 := by
      unfold pixel_offset
      split_ifs
      · exact hj
      · simp only [Vec2.splat]
        norm_num
    obtain ⟨a1, a2, a3, a4⟩ := hoff
    simp only [pixel_ndc, Vec2.add, Vec2.div]
    refine ⟨div_nonneg (by linarith) hw.le, ?_, div_nonneg (by linarith) hh.le, ?_⟩
    · rw [div_le_one hw]
      linarith
    · rw [div_le_one hh]
      linarith
  · unfold pixel_ray
    simp only [St.emit, St.withRng]
    split_ifs <;> simp
  · rw [trace_pixel, hray]

theorem trace_pixel_spec_witness :
    pixel_ndc ex_env 3 1 ex_st = ⟨((3 : ℕ) + 1 / 2) / (4 : ℕ), ((1 : ℕ) + 1 / 2) / (2 : ℕ)⟩ ∧
    (0 ≤ (pixel_ndc ex_env_jitter 3 1 ex_st).x ∧ (pixel_ndc ex_env_jitter 3 1 ex_st).x ≤ 1 ∧
      0 ≤ (pixel_ndc ex_env_jitter 3 1 ex_st).y ∧ (pixel_ndc ex_env_jitter 3 1 ex_st).y ≤ 1) :=
  ⟨((trace_pixel_spec ex_env 3 1 ex_st).1 rfl).2,
   (trace_pixel_spec ex_env_jitter 3 1 ex_st).2.1 (by decide) (by decide)
     (by simp [ex_env_jitter, ex_env]; norm_num)⟩

/-! ## The direct-lighting stage against its specification -/

/-- One iteration adds the sample's contribution and advances the random source by one light
sample. -/
theorem sample_light_iter_spec (env : Env σ) (hit : Trace) (w2o : Mat4) (odir : Vec3)
    (samples : Int) (light : Light σ) (acc : Spectrum × St σ) :
    (sample_light_iter env hit w2o odir samples light acc).1 =
      acc.1.add (sample_contribution env hit w2o odir samples
        (light.sample hit.position acc.2.rng).1) ∧
    (sample_light_iter env hit w2o odir samples light acc).2.rng =
      (light.sample hit.position acc.2.rng).2 := by
  obtain ⟨c1, c2, c3, c4⟩ := sample_light_iter_cases env hit w2o odir samples light acc
  by_cases h1 : (w2o.rotate (light.sample hit.position acc.2.rng).1.direction).y ≤ 0
  · rw [c1 h1]
    simp [sample_contribution, fdiv, to_int, not_lt.mpr h1, Spectrum.add_zero_right]
  · have h1a := not_le.mp h1
    by_cases h2 : env.luma ((env.materials hit.material).evaluate odir
        (w2o.rotate (light.sample hit.position acc.2.rng).1.direction)) = 0
    · rw [c2 h1a h2]
      simp [sample_contribution, fdiv, to_int, h2, Spectrum.add_zero_right]
    · cases h3 : (env.scene_hit (shadow_ray env hit.position
          (light.sample hit.position acc.2.rng).1)).hit
      · rw [c4 h1a h2 h3]
        simp [sample_contribution, fdiv, to_int, h1a, h2, h3, light_term]
      · rw [c3 h1a h2 h3]
        simp [sample_contribution, fdiv, to_int, h3, Spectrum.add_zero_right]

theorem sample_light_loop_spec (env : Env σ) (hit : Trace) (w2o : Mat4) (odir : Vec3)
    (samples : Int) (light : Light σ) (n : Nat) (acc : Spectrum × St σ) :
    (sample_light_loop env hit w2o odir samples light n acc).1 =
      accumulate acc.1 (light_terms env hit w2o odir samples light n acc.2.rng).1 ∧
    (sample_light_loop env hit w2o odir samples light n acc).2.rng =
      (light_terms env hit w2o odir samples light n acc.2.rng).2 := by
  induction n generalizing acc with
  | zero => simp [sample_light_loop, light_terms, accumulate]
  | succ n ih =>
    obtain ⟨i1, i2⟩ := sample_light_iter_spec env hit w2o odir samples light acc
    obtain ⟨l1, l2⟩ := ih (sample_light_iter env hit w2o odir samples light acc)
    rw [sample_light_loop, l1, l2, i1, i2]
    simp [light_terms, accumulate]

theorem sample_lights_spec (env : Env σ) (hit : Trace) (w2o : Mat4) (odir : Vec3)
    (ls : List (Light σ)) (acc : Spectrum × St σ) :
    (sample_lights env hit w2o odir ls acc).1 =
      accumulate acc.1 (lights_terms env hit w2o odir ls acc.2.rng).1 ∧
    (sample_lights env hit w2o odir ls acc).2.rng =
      (lights_terms env hit w2o odir ls acc.2.rng).2 := by
  induction ls generalizing acc with
  | nil => simp [sample_lights, lights_terms, accumulate]
  | cons l ls ih =>
    obtain ⟨a1, a2⟩ := sample_light_loop_spec env hit w2o odir (sample_count env l) l
      (sample_count env l).toNat acc
    obtain ⟨b1, b2⟩ := ih (sample_light env hit w2o odir l acc)
    rw [sample_lights, b1, b2]
    simp only [sample_light, a1, a2]
    simp [lights_terms, accumulate, List.foldl_append, sample_count]

/-- The stage visits the scene lights in order and then the environment light. -/
theorem direct_lighting_all_lights (env : Env σ) (mat : BSDF σ) (hit : Trace) (w2o : Mat4)
    (odir : Vec3) (acc : Spectrum × St σ) (hd : mat.is_discrete = false) :
    direct_lighting env mat hit w2o odir acc =
      sample_lights env hit w2o odir (all_lights env) acc := by
  have happ : ∀ (l1 l2 : List (Light σ)) (a : Spectrum × St σ),
      sample_lights env hit w2o odir (l1 ++ l2) a =
        sample_lights env hit w2o odir l2 (sample_lights env hit w2o odir l1 a) := by
    intro l1
    induction l1 with
    | nil => intro l2 a; rfl
    | cons x xs ih => intro l2 a; simp [sample_lights, ih]
  simp only [direct_lighting, hd, all_lights, happ]
  cases env.env_light <;> simp [sample_lights]

/-- A light draws exactly `sample_count` samples: that many `light.sample` calls are logged. -/
theorem sample_light_loop_draws (env : Env σ) (hit : Trace) (w2o : Mat4) (odir : Vec3)
    (samples : Int) (light : Light σ) (n : Nat) (acc : Spectrum × St σ) :
    (sample_light_loop env hit w2o odir samples light n acc).2.log.count
        (Event.light_sample hit.position) =
      acc.2.log.count (Event.light_sample hit.position) + n := by
  induction n generalizing acc with
  | zero => simp [sample_light_loop]
  | succ n ih =>
    rw [sample_light_loop, ih]
    have h1 : (sample_light_iter env hit w2o odir samples light acc).2.log.count
        (Event.light_sample hit.position) =
        acc.2.log.count (Event.light_sample hit.position) + 1 := by
      unfold sample_light_iter
      simp only [St.emit, St.withRng]
      split_ifs <;> simp [List.count_append, List.count_cons]
    rw [h1]
    omega

/-! ## Which calls each stage logs -/

theorem sample_light_iter_direct (env : Env σ) (hit : Trace) (w2o : Mat4) (odir : Vec3)
    (samples : Int) (light : Light σ) (acc : Spectrum × St σ) :
    ∃ l, (sample_light_iter env hit w2o odir samples light acc).2.log = acc.2.log ++ l ∧
      ∀ e ∈ l, e.fromDirectStage := by
  obtain ⟨c1, c2, c3, c4⟩ := sample_light_iter_cases env hit w2o odir samples light acc
  have hs : (shadow_ray env hit.position (light.sample hit.position acc.2.rng).1).depth = 0 :=
    rfl
  by_cases h1 : (w2o.rotate (light.sample hit.position acc.2.rng).1.direction).y ≤ 0
  · rw [c1 h1]
    exact ⟨_, rfl, by simp [Event.fromDirectStage, Event.isPrimary, Event.queried]⟩
  · have h1a := not_le.mp h1
    by_cases h2 : env.luma ((env.materials hit.material).evaluate odir
        (w2o.rotate (light.sample hit.position acc.2.rng).1.direction)) = 0
    · rw [c2 h1a h2]
      exact ⟨_, rfl, by simp [Event.fromDirectStage, Event.isPrimary, Event.queried]⟩
    · cases h3 : (env.scene_hit (shadow_ray env hit.position
          (light.sample hit.position acc.2.rng).1)).hit
      · rw [c4 h1a h2 h3]
        exact ⟨_, rfl, by simp [Event.fromDirectStage, Event.isPrimary, Event.queried, hs]⟩
      · rw [c3 h1a h2 h3]
        exact ⟨_, rfl, by simp [Event.fromDirectStage, Event.isPrimary, Event.queried, hs]⟩

/-- Two successive extensions of a log whose new entries satisfy `P` form one such extension. -/
theorem log_extension_trans {P : Event → Prop} {a b c : List Event}
    (h1 : ∃ l, b = a ++ l ∧ ∀ e ∈ l, P e) (h2 : ∃ l, c = b ++ l ∧ ∀ e ∈ l, P e) :
    ∃ l, c = a ++ l ∧ ∀ e ∈ l, P e := by
  obtain ⟨l1, e1, p1⟩ := h1
  obtain ⟨l2, e2, p2⟩ := h2
  refine ⟨l1 ++ l2, by rw [e2, e1, List.append_assoc], ?_⟩
  intro e he
  rcases List.mem_append.mp he with h | h
  · exact p1 e h
  · exact p2 e h

theorem sample_light_loop_direct (env : Env σ) (hit : Trace) (w2o : Mat4) (odir : Vec3)
    (samples : Int) (light : Light σ) (n : Nat) (acc : Spectrum × St σ) :
    ∃ l, (sample_light_loop env hit w2o odir samples light n acc).2.log = acc.2.log ++ l ∧
      ∀ e ∈ l, e.fromDirectStage := by
  induction n generalizing acc with
  | zero => exact ⟨[], by simp [sample_light_loop]⟩
  | succ n ih =>
    rw [sample_light_loop]
    exact log_extension_trans (sample_light_iter_direct env hit w2o odir samples light acc)
      (ih _)

theorem sample_lights_direct (env : Env σ) (hit : Trace) (w2o : Mat4) (odir : Vec3)
    (ls : List (Light σ)) (acc : Spectrum × St σ) :
    ∃ l, (sample_lights env hit w2o odir ls acc).2.log = acc.2.log ++ l ∧
      ∀ e ∈ l, e.fromDirectStage := by
  induction ls generalizing acc with
  | nil => exact ⟨[], by simp [sample_lights]⟩
  | cons x xs ih =>
    rw [sample_lights]
    exact log_extension_trans
      (sample_light_loop_direct env hit w2o odir (sample_count env x) x
        (sample_count env x).toNat acc)
      (ih _)

theorem direct_lighting_direct (env : Env σ) (mat : BSDF σ) (hit : Trace) (w2o : Mat4)
    (odir : Vec3) (acc : Spectrum × St σ) :
    ∃ l, (direct_lighting env mat hit w2o odir acc).2.log = acc.2.log ++ l ∧
      ∀ e ∈ l, e.fromDirectStage := by
  cases hd : mat.is_discrete with
  | true =>
    rw [direct_lighting_discrete env mat hit w2o odir acc hd]
    exact ⟨[], by simp⟩
  | false =>
    rw [direct_lighting_all_lights env mat hit w2o odir acc hd]
    exact sample_lights_direct env hit w2o odir _ acc

theorem primary_queries_append (a b : List Event) :
    primary_queries (a ++ b) = primary_queries a + primary_queries b := by
  simp [primary_queries, List.countP_append]

theorem primary_queries_direct (l : List Event) (h : ∀ e ∈ l, e.fromDirectStage) :
    primary_queries l = 0 := by
  unfold primary_queries
  rw [List.countP_eq_zero]
  intro e he
  simp [(h e he).1]

theorem queries_within_direct (m : Nat) (l : List Event) (h : ∀ e ∈ l, e.fromDirectStage) :
    queries_within m l := by
  intro e he r hr
  rw [(h e he).2 r hr]
  exact Nat.zero_le m

theorem queries_within_append (m : Nat) (a b : List Event) (ha : queries_within m a)
    (hb : queries_within m b) : queries_within m (a ++ b) := by
  intro e he
  rcases List.mem_append.mp he with h | h
  · exact ha e h
  · exact hb e h

/-- The calls one `trace_ray` call adds to the log: at most `max_depth + 1 - depth` queries on
traced rays, and no scene query on a ray beyond the depth limit. -/
theorem trace_ray_bounded_aux (env : Env σ) (n : Nat) :
    ∀ (ray : Ray) (s : St σ), env.max_depth + 1 - ray.depth ≤ n →
      ∃ l, (trace_ray env ray s).2.log = s.log ++ l ∧
        primary_queries l ≤ env.max_depth + 1 - ray.depth ∧
        queries_within env.max_depth l := by
  induction n with
  | zero =>
    intro ray s hle
    rw [trace_ray_exceeded env ray s (by omega)]
    exact ⟨[], by simp, by simp [primary_queries], by simp [queries_within]⟩
  | succ n ih =>
    intro ray s hle
    by_cases hd : env.max_depth < ray.depth
    · rw [trace_ray_exceeded env ray s hd]
      exact ⟨[], by simp, by simp [primary_queries], by simp [queries_within]⟩
    have hd2 : ray.depth ≤ env.max_depth := Nat.not_lt.mp hd
    have hone : 1 ≤ env.max_depth + 1 - ray.depth := by omega
    have hq1 : queries_within env.max_depth [Event.scene_hit ray] := by
      intro e he r hr
      simp only [List.mem_singleton] at he
      subst he
      simp only [Event.queried, Option.some.injEq] at hr
      subst hr
      exact hd2
    cases hm : (env.scene_hit ray).hit with
    | false =>
      cases he : env.env_light with
      | none =>
        rw [trace_ray_miss_none env ray s hd2 hm he]
        exact ⟨_, rfl, by simpa [primary_queries, Event.isPrimary] using hone, hq1⟩
      | some e =>
        rw [trace_ray_miss_some env ray s e hd2 hm he]
        refine ⟨_, rfl, by simpa [primary_queries, Event.isPrimary] using hone, ?_⟩
        exact queries_within_append _ [_] [_] hq1 (by simp [queries_within, Event.queried])
    | true =>
      cases hn : env.normal_colors with
      | true =>
        rw [trace_ray_debug env ray s hd2 hm hn]
        exact ⟨_, rfl, by simpa [primary_queries, Event.isPrimary] using hone, hq1⟩
      | false =>
        rw [trace_ray_hit env ray s hd2 hm hn]
        simp only []
        obtain ⟨l1, h1, p1⟩ := direct_lighting_direct env
          (env.materials (env.scene_hit ray).material) (shading_hit env ray)
          (world_to_object env ray) (out_dir env ray)
          (((env.materials (env.scene_hit ray).material).sample (out_dir env ray)
            s.rng).1.emissive,
            ⟨((env.materials (env.scene_hit ray).material).sample (out_dir env ray) s.rng).2,
              s.log ++ [Event.scene_hit ray,
                Event.bsdf_sample (env.scene_hit ray).material (out_dir env ray)]⟩)
        simp only [] at h1
        generalize direct_lighting env _ _ _ _ _ = D at h1 ⊢
        have hq2 : queries_within env.max_depth
            ([Event.scene_hit ray,
              Event.bsdf_sample (env.scene_hit ray).material (out_dir env ray)] ++ l1 ++
              [Event.rng_unit]) := by
          refine queries_within_append _ _ _ (queries_within_append _ [_, _] _ ?_
            (queries_within_direct _ _ p1)) (by simp [queries_within, Event.queried])
          exact queries_within_append _ [_] [_] hq1 (by simp [queries_within, Event.queried])
        have hc2 : primary_queries
            ([Event.scene_hit ray,
              Event.bsdf_sample (env.scene_hit ray).material (out_dir env ray)] ++ l1 ++
              [Event.rng_unit]) = 1 := by
          rw [primary_queries_append, primary_queries_append, primary_queries_direct l1 p1]
          simp [primary_queries, Event.isPrimary]
        split_ifs
        · refine ⟨_, ?_, ?_, hq2⟩
          · rw [h1, List.append_assoc, List.append_assoc, ← List.append_assoc _ l1]
          · rw [hc2]
            exact hone
        · obtain ⟨l2, h2, c2, q2⟩ := ih (bounced_ray env ray (shading_hit env ray)
            (object_to_world env ray)
            ((env.materials (env.scene_hit ray).material).sample (out_dir env ray) s.rng).1)
            ⟨(env.rng_unit D.2.rng).2, D.2.log ++ [Event.rng_unit]⟩
            (by simp only [bounced_ray]; omega)
          simp only [] at h2
          have hdep : (bounced_ray env ray (shading_hit env ray) (object_to_world env ray)
            ((env.materials (env.scene_hit ray).material).sample (out_dir env ray)
              s.rng).1).depth = ray.depth + 1 := rfl
          rw [hdep] at c2
          refine ⟨_, ?_, ?_, queries_within_append _ _ _ hq2 q2⟩
          · rw [h2, h1, List.append_assoc, List.append_assoc, List.append_assoc,
              ← List.append_assoc _ l1, ← List.append_assoc _ [Event.rng_unit]]
          · rw [primary_queries_append, hc2]
            omega

theorem to_int_of_lt (n : Nat) (h : n < 2 ^ 31) : to_int n = (n : Int) := by
  have h1 : n % 2 ^ 32 = n := Nat.mod_eq_of_lt (by omega)
  unfold to_int
  rw [h1, if_pos h]

/-- C11 (as stated, refuted): with `n_area_samples = 2^32 + 1` the environment light of the
example scene is not discrete, yet `(int)n_area_samples` is 1 and `sample_light` draws a single
sample from it, not `n_area_samples` samples. -/
theorem sample_count_counterexample :
    ex_env_huge.n_area_samples = 2 ^ 32 + 1 ∧
    ex_sky.toLight.is_discrete = false ∧
    sample_count ex_env_huge ex_sky.toLight = 1 ∧
    (sample_light ex_env_huge (ex_env_huge.scene_hit ex_ray_down) Mat4.I ⟨0, 1, 0⟩
      ex_sky.toLight (Spectrum.zero, ex_st)).2.log.count (Event.light_sample ⟨0, 0, 0⟩) = 1 := by
  have hc : sample_count ex_env_huge ex_sky.toLight = 1 := by
    simp [sample_count, ex_sky, ex_env_huge, to_int]
  refine ⟨rfl, rfl, hc, ?_⟩
  rw [sample_light, hc]
  simp [sample_light_loop, sample_light_iter, ex_env_huge, ex_env, ex_bsdf, ex_sky, ex_st,
    ex_floor, ex_ray_down, shadow_ray, Ray.mk2, Mat4.I, Mat4.rotate, St.emit, St.withRng]
  norm_num [List.count_cons]
  exact ⟨fun h => Event.noConfusion h, fun h => Event.noConfusion h⟩

/-- C11 (amended): for a hit on a non-discrete reflectance model the direct-lighting stage runs
`sample_light` on every scene light in order and then on the environment light if present.
Each light is sampled `sample_count` times, where `sample_count` is 1 for a discrete light
and `(int)n_area_samples` otherwise: that is `n_area_samples` whenever
`n_area_samples < 2^31`, and no sample is drawn when the converted count is not positive. A
sample with `cos_theta > 0`, non-zero evaluated-throughput luma and an unoccluded shadow ray
adds exactly `cos_theta / (sample_count * light_pdf) * light_radiance *
bsdf.evaluate(out_dir, in_dir)`. The accumulator after the stage is the accumulator before it
plus these terms over all lights and samples, added in the order drawn. -/
theorem direct_lighting_sum (env : Env σ) (mat : BSDF σ) (hit : Trace) (w2o : Mat4)
    (odir : Vec3) (acc : Spectrum × St σ) (hd : mat.is_discrete = false) :
    direct_lighting env mat hit w2o odir acc =
      sample_lights env hit w2o odir (env.lights ++
        (env.env_light.map Env_Light.toLight).toList) acc ∧
    (∀ light : Light σ,
      sample_count env light = if light.is_discrete then 1 else to_int env.n_area_samples) ∧
    (env.n_area_samples < 2 ^ 31 → to_int env.n_area_samples = (env.n_area_samples : Int)) ∧
    (∀ (light : Light σ) (a : Spectrum × St σ),
      (sample_light env hit w2o odir light a).2.log.count (Event.light_sample hit.position) =
        a.2.log.count (Event.light_sample hit.position) + (sample_count env light).toNat) ∧
    (∀ (light : Light σ) (a : Spectrum × St σ),
      0 < (w2o.rotate (light.sample hit.position a.2.rng).1.direction).y →
      env.luma ((env.materials hit.material).evaluate odir
        (w2o.rotate (light.sample hit.position a.2.rng).1.direction)) ≠ 0 →
      (env.scene_hit (shadow_ray env hit.position
        (light.sample hit.position a.2.rng).1)).hit = false →
      (sample_light_iter env hit w2o odir (sample_count env light) light a).1 =
        a.1.add ((Spectrum.scale
          (fdiv env (w2o.rotate (light.sample hit.position a.2.rng).1.direction).y
            ((sample_count env light : ℚ) * (light.sample hit.position a.2.rng).1.pdf))
          (light.sample hit.position a.2.rng).1.radiance).mul
          ((env.materials hit.material).evaluate odir
            (w2o.rotate (light.sample hit.position a.2.rng).1.direction)))) ∧
    (direct_lighting env mat hit w2o odir acc).1 =
      accumulate acc.1 (lights_terms env hit w2o odir (env.lights ++
        (env.env_light.map Env_Light.toLight).toList) acc.2.rng).1 := by
  refine ⟨direct_lighting_all_lights env mat hit w2o odir acc hd, fun _ => rfl,
    to_int_of_lt _, ?_, ?_, ?_⟩
  · intro light a
    exact sample_light_loop_draws env hit w2o odir _ light _ a
  · intro light a h1 h2 h3
    rw [(sample_light_iter_cases env hit w2o odir (sample_count env light) light a).2.2.2
      h1 h2 h3]
    rfl
  · rw [direct_lighting_all_lights env mat hit w2o odir acc hd]
    exact (sample_lights_spec env hit w2o odir (all_lights env) acc).1

theorem direct_lighting_sum_witness :
    (direct_lighting ex_env_sky ex_bsdf (ex_env_sky.scene_hit ex_ray_down) Mat4.I ⟨0, 1, 0⟩
      (⟨0, 0, 0⟩, ex_st)).1 = ⟨5 / 4, 5 / 4, 5 / 4⟩ := by
  rw [(direct_lighting_sum ex_env_sky ex_bsdf (ex_env_sky.scene_hit ex_ray_down) Mat4.I
    ⟨0, 1, 0⟩ (⟨0, 0, 0⟩, ex_st) rfl).2.2.2.2.2]
  simp [ex_env_sky, ex_env, ex_bsdf, ex_light, ex_sky, ex_st, ex_floor, ex_ray_down,
    lights_terms, light_terms, sample_contribution, fdiv, to_int, accumulate, shadow_ray, Ray.mk2, Mat4.I,
    Mat4.rotate, Spectrum.add, Spectrum.mul, Spectrum.scale, Spectrum.zero]
  norm_num

/-- C12: after the direct stage with accumulated radiance `D`, `pRR` is 0.5 when the
attenuation luma is below 0.3 and 1 otherwise. If the draw `u` exceeds `pRR` the result is
exactly `D`; otherwise it is exactly
`D + attenuation * trace_ray(r') * |sample.direction.y| / (sample.pdf * pRR)`, where `r'` starts
at the hit position, points along the sampled direction rotated to world space, has near bound
`EPS_F` and depth `ray.depth + 1`. When the luma is at least 0.3 and `u < 1`, roulette does not
terminate the path. -/
theorem trace_ray_roulette_step (env : Env σ) (ray : Ray) (s : St σ)
    (h : ray.depth ≤ env.max_depth) (hm : (env.scene_hit ray).hit = true)
    (hn : env.normal_colors = false) :
    let bsdf := env.materials (env.scene_hit ray).material
    let bs := bsdf.sample (out_dir env ray) s.rng
    let direct := direct_lighting env bsdf (shading_hit env ray) (world_to_object env ray)
      (out_dir env ray) (bs.1.emissive, ⟨bs.2, s.log ++ [Event.scene_hit ray,
        Event.bsdf_sample (env.scene_hit ray).material (out_dir env ray)]⟩)
    let u := env.rng_unit direct.2.rng
    let s3 : St σ := ⟨u.2, direct.2.log ++ [Event.rng_unit]⟩
    let pRR := roulette_prob env bs.1
    let r := bounced_ray env ray (shading_hit env ray) (object_to_world env ray) bs.1
    let continued := direct.1.add (((bs.1.attenuation.mul (trace_ray env r s3).1).muls
      |bs.1.direction.y|).divs (bs.1.pdf * pRR))
    (pRR = if env.luma bs.1.attenuation < 3 / 10 then 1 / 2 else 1) ∧
    (u.1 > pRR → trace_ray env ray s = (direct.1, s3)) ∧
    (¬ u.1 > pRR → trace_ray env ray s = (continued, (trace_ray env r s3).2)) ∧
    r.point = (env.scene_hit ray).position ∧
    r.dir = (object_to_world env ray).rotate bs.1.direction ∧
    r.time_bounds.x = env.EPS_F ∧
    r.depth = ray.depth + 1 ∧
    (3 / 10 ≤ env.luma bs.1.attenuation → u.1 < 1 →
      trace_ray env ray s = (continued, (trace_ray env r s3).2)) := by
  intro bsdf bs direct u s3 pRR r continued
  have hcont : ¬ u.1 > pRR → trace_ray env ray s = (continued, (trace_ray env r s3).2) := by
    intro hu
    rw [trace_ray_hit env ray s h hm hn]
    simp only []
    rw [if_neg hu]
    rfl
  refine ⟨rfl, ?_, hcont, shading_hit_position env ray, rfl, rfl, rfl, ?_⟩
  · intro hu
    rw [trace_ray_hit env ray s h hm hn]
    simp only []
    rw [if_pos hu]
  · intro hl hu
    apply hcont
    have hp : pRR = 1 := by simp [pRR, roulette_prob, not_lt.mpr hl]
    rw [hp]
    exact not_lt.mpr hu.le

theorem trace_ray_roulette_step_witness :
    trace_ray ex_env_sky2 ex_ray_down ⟨[3 / 4], []⟩ =
      (⟨7 / 4, 7 / 4, 7 / 4⟩, ⟨[], [Event.scene_hit ex_ray_down,
        Event.bsdf_sample 0 ⟨0, 1, 0⟩,
        Event.light_sample ⟨0, 0, 0⟩, Event.bsdf_evaluate 0 ⟨0, 1, 0⟩ ⟨0, 1, 0⟩,
        Event.shadow_hit ⟨⟨0, 0, 0⟩, ⟨0, 1, 0⟩, ⟨1 / 1000, 5 - 1 / 1000⟩, 0⟩,
        Event.light_sample ⟨0, 0, 0⟩, Event.bsdf_evaluate 0 ⟨0, 1, 0⟩ ⟨0, 1, 0⟩,
        Event.shadow_hit ⟨⟨0, 0, 0⟩, ⟨0, 1, 0⟩, ⟨1 / 1000, 1000 - 1 / 1000⟩, 0⟩,
        Event.light_sample ⟨0, 0, 0⟩, Event.bsdf_evaluate 0 ⟨0, 1, 0⟩ ⟨0, 1, 0⟩,
        Event.shadow_hit ⟨⟨0, 0, 0⟩, ⟨0, 1, 0⟩, ⟨1 / 1000, 1000 - 1 / 1000⟩, 0⟩,
        Event.rng_unit,
        Event.scene_hit ⟨⟨0, 0, 0⟩, ⟨0, 1, 0⟩, ⟨1 / 1000, 1000000⟩, 1⟩,
        Event.env_sample_direction ⟨0, 1, 0⟩]⟩) := by
  have h := trace_ray_roulette_step ex_env_sky2 ex_ray_down ⟨[3 / 4], []⟩ (by decide)
    (by decide) rfl
  simp only [] at h
  rw [h.2.2.2.2.2.2.2 (by simp [ex_env_sky2, ex_env, ex_bsdf]; norm_num)
    (by
      simp [ex_env_sky2, ex_env, ex_bsdf, roulette_prob, direct_lighting, sample_lights,
        sample_light, sample_light_loop, sample_light_iter, sample_count, to_int, ex_light, ex_sky,
        St.emit, St.withRng, ex_floor, shadow_ray, Ray.mk2, world_to_object, object_to_world,
        Mat4.I, Mat4.T, Mat4.rotate, shading_hit, flip_normal, ex_ray_down]
      norm_num)]
  rw [trace_ray_miss_some _ _ _ ex_sky (by decide)
    (by
      simp [ex_env_sky2, ex_env, ex_bsdf, ex_floor, bounced_ray, Ray.mk2, object_to_world,
        Mat4.I, Mat4.rotate]
      norm_num) rfl]
  simp [ex_env_sky2, ex_env, ex_bsdf, roulette_prob, direct_lighting, sample_lights,
    sample_light, sample_light_loop, sample_light_iter, sample_count, to_int, ex_light, ex_sky,
    St.emit, St.withRng, ex_floor, shadow_ray, Ray.mk2, world_to_object, object_to_world,
    Mat4.I, Mat4.T, Mat4.rotate, shading_hit, flip_normal, ex_ray_down, indirect_term,
    light_term, fdiv, Spectrum.add, Spectrum.mul, Spectrum.muls, Spectrum.divs, Spectrum.scale,
    bounced_ray, out_dir, Vec3.sub, dot, Vec3.neg]
  norm_num

/-- C13: the recursion of `trace_ray` is bounded by the depth limit. The ray of every recursive
call has depth exactly the caller's depth plus 1. For every scene, collaborators and state of
the random source, a call on a ray of depth `d` returns, having added to the log at most
`max_depth + 1 - d` scene intersection queries on traced rays (none when `d > max_depth`), and
every ray it intersected with the scene, traced or shadow, has depth at most `max_depth`. -/
theorem trace_ray_bounded (env : Env σ) (ray : Ray) (s : St σ) :
    (∀ (hit : Trace) (o2w : Mat4) (bs : BSDF_Sample),
      (bounced_ray env ray hit o2w bs).depth = ray.depth + 1) ∧
    (∃ l, (trace_ray env ray s).2.log = s.log ++ l ∧
      primary_queries l ≤ env.max_depth + 1 - ray.depth ∧
      (ray.depth ≤ env.max_depth → primary_queries l ≤ env.max_depth - ray.depth + 1) ∧
      (∀ e ∈ l, ∀ r, e.queried = some r → r.depth ≤ env.max_depth)) := by
  refine ⟨fun _ _ _ => rfl, ?_⟩
  obtain ⟨l, h1, h2, h3⟩ := trace_ray_bounded_aux env _ ray s le_rfl
  exact ⟨l, h1, h2, fun hd => by omega, h3⟩

theorem trace_ray_bounded_witness :
    ∃ l, (trace_ray ex_env_sky2 ex_ray_down ex_st).2.log = ex_st.log ++ l ∧
      primary_queries l ≤ ex_env_sky2.max_depth + 1 - ex_ray_down.depth ∧
      (ex_ray_down.depth ≤ ex_env_sky2.max_depth →
        primary_queries l ≤ ex_env_sky2.max_depth - ex_ray_down.depth + 1) ∧
      (∀ e ∈ l, ∀ r, e.queried = some r → r.depth ≤ ex_env_sky2.max_depth) :=
  (trace_ray_bounded ex_env_sky2 ex_ray_down ex_st).2

theorem transpose_rotate_y (m : Mat4) (v : Vec3) : (m.T.rotate v).y = dot m.c1 v := by
  simp [Mat4.T, Mat4.rotate, dot]

theorem shading_normal_cases (env : Env σ) (ray : Ray) :
    (((env.materials (env.scene_hit ray).material).is_sided = false ∧
        0 < dot (env.scene_hit ray).normal ray.dir) →
      (shading_hit env ray).normal = (env.scene_hit ray).normal.neg) ∧
    (¬ ((env.materials (env.scene_hit ray).material).is_sided = false ∧
        0 < dot (env.scene_hit ray).normal ray.dir) →
      (shading_hit env ray).normal = (env.scene_hit ray).normal) := by
  constructor
  · intro h
    simp [shading_hit, flip_normal, h.1, h.2]
  · intro h
    unfold shading_hit flip_normal
    rw [if_neg]
    intro hc
    apply h
    simpa using hc

theorem shading_normal_faces_ray (env : Env σ) (ray : Ray)
    (hs : (env.materials (env.scene_hit ray).material).is_sided = false) :
    dot (shading_hit env ray).normal ray.dir ≤ 0 := by
  obtain ⟨c1, c2⟩ := shading_normal_cases env ray
  by_cases h : 0 < dot (env.scene_hit ray).normal ray.dir
  · rw [c1 ⟨hs, h⟩]
    simp only [dot, Vec3.neg] at h ⊢
    linarith
  · rw [c2 (fun hc => h hc.2)]
    exact not_lt.mp h

/-- C14: the normal-flip rule. The hit normal is negated when the reflectance model's
`is_sided()` is false and `dot(hit.normal, ray.dir) > 0`, and left as it is otherwise. So on a
model with `is_sided() = false` the normal `n` used to build the shading frame has
`dot(n, ray.dir) <= 0`; and if the hit position is `ray.point + t * ray.dir` with `t > 0`, the
frame's up axis (second column of `object_to_world`) is a positive multiple of `n`, and
`unit()` scales by a non-negative factor, then `out_dir.y >= 0`. -/
theorem normal_flip_rule (env : Env σ) (ray : Ray) :
    (((env.materials (env.scene_hit ray).material).is_sided = false ∧
        0 < dot (env.scene_hit ray).normal ray.dir) →
      (shading_hit env ray).normal = (env.scene_hit ray).normal.neg) ∧
    (¬ ((env.materials (env.scene_hit ray).material).is_sided = false ∧
        0 < dot (env.scene_hit ray).normal ray.dir) →
      (shading_hit env ray).normal = (env.scene_hit ray).normal) ∧
    ((env.materials (env.scene_hit ray).material).is_sided = false →
      dot (shading_hit env ray).normal ray.dir ≤ 0) ∧
    ((env.materials (env.scene_hit ray).material).is_sided = false →
      ∀ t k : ℚ, 0 < t → 0 < k →
      (env.scene_hit ray).position = ⟨ray.point.x + t * ray.dir.x,
        ray.point.y + t * ray.dir.y, ray.point.z + t * ray.dir.z⟩ →
      (object_to_world env ray).c1 = ⟨k * (shading_hit env ray).normal.x,
        k * (shading_hit env ray).normal.y, k * (shading_hit env ray).normal.z⟩ →
      (∀ v : Vec3, ∃ c : ℚ, 0 ≤ c ∧ env.unit v = ⟨c * v.x, c * v.y, c * v.z⟩) →
      0 ≤ (out_dir env ray).y) := by
  obtain ⟨c1, c2⟩ := shading_normal_cases env ray
  refine ⟨c1, c2, shading_normal_faces_ray env ray, ?_⟩
  intro hs t k ht hk hpos hframe hunit
  have hdot := shading_normal_faces_ray env ray hs
  obtain ⟨c, hc, hu⟩ := hunit ((world_to_object env ray).rotate
    (ray.point.sub (shading_hit env ray).position))
  unfold out_dir
  rw [hu]
  simp only [world_to_object, transpose_rotate_y, hframe, shading_hit_position, hpos]
  simp only [dot, Vec3.sub] at hdot ⊢
  apply mul_nonneg hc
  have h2 : k * (shading_hit env ray).normal.x * (ray.point.x - (ray.point.x + t * ray.dir.x)) +
      k * (shading_hit env ray).normal.y * (ray.point.y - (ray.point.y + t * ray.dir.y)) +
      k * (shading_hit env ray).normal.z * (ray.point.z - (ray.point.z + t * ray.dir.z)) =
      (k * t) * -((shading_hit env ray).normal.x * ray.dir.x +
        (shading_hit env ray).normal.y * ray.dir.y +
        (shading_hit env ray).normal.z * ray.dir.z) := by ring
  rw [h2]
  exact mul_nonneg (mul_pos hk ht).le (by linarith)

theorem normal_flip_rule_witness :
    (shading_hit ex_env_blocked ex_ray_up).normal = ⟨0, -1, 0⟩ ∧
    0 ≤ (out_dir ex_env ex_ray_down).y :=
  ⟨((normal_flip_rule ex_env_blocked ex_ray_up).1
      ⟨rfl, by simp [ex_env_blocked, ex_ray_up, dot]⟩).trans
      (by simp [ex_env_blocked, Vec3.neg]),
  (normal_flip_rule ex_env ex_ray_down).2.2.2 rfl 1 1 (by norm_num) (by norm_num)
    (by simp [ex_env, ex_floor, ex_ray_down])
    (by
      simp [ex_env, ex_floor, ex_ray_down, object_to_world, shading_hit, flip_normal, Mat4.I,
        dot, ex_bsdf]
      norm_num)
    (fun v => ⟨1, by norm_num, by simp [ex_env]⟩)⟩

/-- C15: a light sample whose local direction has `cos_theta = in_dir.y <= 0`, or for which
`bsdf.evaluate(out_dir, in_dir)` has luma exactly 0, leaves the accumulator unchanged, and no
shadow ray is cast for it: none of the calls the iteration logs is a shadow-ray query. -/
theorem sample_light_iter_skipped (env : Env σ) (hit : Trace) (w2o : Mat4) (odir : Vec3)
    (samples : Int) (light : Light σ) (acc : Spectrum × St σ)
    (h : (w2o.rotate (light.sample hit.position acc.2.rng).1.direction).y ≤ 0 ∨
      env.luma ((env.materials hit.material).evaluate odir
        (w2o.rotate (light.sample hit.position acc.2.rng).1.direction)) = 0) :
    (sample_light_iter env hit w2o odir samples light acc).1 = acc.1 ∧
    ∃ l, (sample_light_iter env hit w2o odir samples light acc).2.log = acc.2.log ++ l ∧
      ∀ r, Event.shadow_hit r ∉ l := by
  obtain ⟨c1, c2, _, _⟩ := sample_light_iter_cases env hit w2o odir samples light acc
  by_cases h1 : (w2o.rotate (light.sample hit.position acc.2.rng).1.direction).y ≤ 0
  · rw [c1 h1]
    exact ⟨rfl, _, rfl, by simp⟩
  · have h2 : env.luma ((env.materials hit.material).evaluate odir
        (w2o.rotate (light.sample hit.position acc.2.rng).1.direction)) = 0 := by
      rcases h with h | h
      · exact absurd h h1
      · exact h
    rw [c2 (not_le.mp h1) h2]
    exact ⟨rfl, _, rfl, by simp⟩

theorem sample_light_iter_skipped_witness :
    (sample_light_iter ex_env_mirror (ex_env_mirror.scene_hit ex_ray_down) Mat4.I ⟨0, 1, 0⟩ 1
      ex_light (⟨1, 2, 3⟩, ex_st)).1 = ⟨1, 2, 3⟩ ∧
    ∃ l, (sample_light_iter ex_env_mirror (ex_env_mirror.scene_hit ex_ray_down) Mat4.I
        ⟨0, 1, 0⟩ 1 ex_light (⟨1, 2, 3⟩, ex_st)).2.log = ex_st.log ++ l ∧
      ∀ r, Event.shadow_hit r ∉ l :=
  sample_light_iter_skipped ex_env_mirror (ex_env_mirror.scene_hit ex_ray_down) Mat4.I
    ⟨0, 1, 0⟩ 1 ex_light (⟨1, 2, 3⟩, ex_st)
    (Or.inr (by simp [ex_env_mirror, ex_env, ex_mirror]))

/-- C16 (as stated, refuted): in the example scene lit by a light five units away whose sample
direction `(0, 2, 0)` has length 2, the sample reaches the visibility test and the shadow ray
passed to `scene.hit` has the interval `[EPS_F, 5/2 - EPS_F]`, not `[EPS_F, 5 - EPS_F]`. -/
theorem shadow_ray_interval_counterexample :
    (ex_light_long.sample ⟨0, 0, 0⟩ ex_st.rng).1.distance = 5 ∧
    ex_env_long.norm (ex_light_long.sample ⟨0, 0, 0⟩ ex_st.rng).1.direction = 2 ∧
    Event.shadow_hit ⟨⟨0, 0, 0⟩, ⟨0, 2, 0⟩, ⟨1 / 1000, 5 / 2 - 1 / 1000⟩, 0⟩ ∈
      (sample_light_iter ex_env_long (ex_env_long.scene_hit ex_ray_down) Mat4.I ⟨0, 1, 0⟩ 1
        ex_light_long (Spectrum.zero, ex_st)).2.log ∧
    (shadow_ray ex_env_long ⟨0, 0, 0⟩
        (ex_light_long.sample ⟨0, 0, 0⟩ ex_st.rng).1).time_bounds ≠
      ⟨ex_env_long.EPS_F,
        (ex_light_long.sample ⟨0, 0, 0⟩ ex_st.rng).1.distance - ex_env_long.EPS_F⟩ := by
  refine ⟨rfl, ?_, ?_, ?_⟩
  · simp [ex_env_long, ex_light_long, ex_axis_norm]
  · simp [ex_env_long, ex_env, ex_bsdf, ex_light_long, ex_st, ex_floor, ex_ray_down,
      ex_axis_norm, sample_light_iter, shadow_ray, Ray.mk2, Mat4.I, Mat4.rotate, St.emit,
      St.withRng]
    norm_num
  · simp [ex_env_long, ex_env, ex_light_long, ex_axis_norm, shadow_ray, Ray.mk2]
    norm_num

/-- C16 (amended): for every light sample that reaches the visibility test, the ray passed to
`scene.hit` starts at the hit position, points along the light sample's world-space direction,
and has the valid parameter interval `[EPS_F, distance / |direction| - EPS_F]`, where
`|direction|` is the length of the sample's direction; this is `[EPS_F, distance - EPS_F]` when
that length is 1. -/
theorem shadow_ray_spec (env : Env σ) (hit : Trace) (w2o : Mat4) (odir : Vec3)
    (samples : Int) (light : Light σ) (acc : Spectrum × St σ)
    (h1 : 0 < (w2o.rotate (light.sample hit.position acc.2.rng).1.direction).y)
    (h2 : env.luma ((env.materials hit.material).evaluate odir
      (w2o.rotate (light.sample hit.position acc.2.rng).1.direction)) ≠ 0) :
    let sample := (light.sample hit.position acc.2.rng).1
    let shadow := shadow_ray env hit.position sample
    (sample_light_iter env hit w2o odir samples light acc).2.log =
      acc.2.log ++ [Event.light_sample hit.position,
        Event.bsdf_evaluate hit.material odir (w2o.rotate sample.direction),
        Event.shadow_hit shadow] ∧
    shadow.point = hit.position ∧
    shadow.dir = sample.direction ∧
    shadow.time_bounds =
      ⟨env.EPS_F, sample.distance / env.norm sample.direction - env.EPS_F⟩ ∧
    (env.norm sample.direction = 1 →
      shadow.time_bounds = ⟨env.EPS_F, sample.distance - env.EPS_F⟩) := by
  intro sample shadow
  obtain ⟨_, _, c3, c4⟩ := sample_light_iter_cases env hit w2o odir samples light acc
  refine ⟨?_, rfl, rfl, rfl, ?_⟩
  · cases h3 : (env.scene_hit (shadow_ray env hit.position
        (light.sample hit.position acc.2.rng).1)).hit
    · rw [c4 h1 h2 h3]
    · rw [c3 h1 h2 h3]
  · intro hn
    simp [shadow, shadow_ray, hn]

theorem shadow_ray_spec_witness :
    (sample_light_iter ex_env_long (ex_env_long.scene_hit ex_ray_down) Mat4.I ⟨0, 1, 0⟩ 1
        ex_light_long (Spectrum.zero, ex_st)).2.log =
      [Event.light_sample ⟨0, 0, 0⟩,
        Event.bsdf_evaluate 0 ⟨0, 1, 0⟩ (Mat4.I.rotate ⟨0, 2, 0⟩),
        Event.shadow_hit (shadow_ray ex_env_long ⟨0, 0, 0⟩
          (ex_light_long.sample ⟨0, 0, 0⟩ ex_st.rng).1)] :=
  (shadow_ray_spec ex_env_long (ex_env_long.scene_hit ex_ray_down) Mat4.I ⟨0, 1, 0⟩ 1
    ex_light_long (Spectrum.zero, ex_st)
    (by simp [ex_light_long, Mat4.I, Mat4.rotate])
    (by simp [ex_env_long, ex_env, ex_bsdf]; norm_num)).1

/-- C17: the environment light is counted on two routes. At a hit on a non-discrete
reflectance model with an environment light configured (debug flag off), when the path
survives roulette and the bounced ray, of depth at most `max_depth`, misses all geometry, the
result is the emissive term plus the direct-lighting terms of all scene lights and of the
environment light's own samples, plus `attenuation * env_light.sample_direction(bounce_dir) *
|sample.direction.y| / (sample.pdf * pRR)`. The environment radiance enters through both, with
no weighting or exclusion between them. -/
theorem env_light_two_routes (env : Env σ) (ray : Ray) (s : St σ) (e : Env_Light σ)
    (h : ray.depth + 1 ≤ env.max_depth) (hm : (env.scene_hit ray).hit = true)
    (hn : env.normal_colors = false)
    (hnd : (env.materials (env.scene_hit ray).material).is_discrete = false)
    (he : env.env_light = some e)
    (hu : ¬ (env.rng_unit (direct_lighting env (env.materials (env.scene_hit ray).material)
        (shading_hit env ray) (world_to_object env ray) (out_dir env ray)
        (((env.materials (env.scene_hit ray).material).sample (out_dir env ray)
          s.rng).1.emissive,
          ⟨((env.materials (env.scene_hit ray).material).sample (out_dir env ray) s.rng).2,
            s.log ++ [Event.scene_hit ray, Event.bsdf_sample (env.scene_hit ray).material
              (out_dir env ray)]⟩)).2.rng).1 >
      roulette_prob env
        ((env.materials (env.scene_hit ray).material).sample (out_dir env ray) s.rng).1)
    (hmiss : (env.scene_hit (bounced_ray env ray (shading_hit env ray)
      (object_to_world env ray)
      ((env.materials (env.scene_hit ray).material).sample (out_dir env ray) s.rng).1)).hit =
        false) :
    let bsdf := env.materials (env.scene_hit ray).material
    let bs := bsdf.sample (out_dir env ray) s.rng
    let r := bounced_ray env ray (shading_hit env ray) (object_to_world env ray) bs.1
    let direct := accumulate bs.1.emissive (lights_terms env (shading_hit env ray)
      (world_to_object env ray) (out_dir env ray) (env.lights ++ [e.toLight]) bs.2).1
    (trace_ray env ray s).1 =
      direct.add (((bs.1.attenuation.mul (e.sample_direction r.dir)).muls
        |bs.1.direction.y|).divs (bs.1.pdf * roulette_prob env bs.1)) ∧
    (direct_lighting env bsdf (shading_hit env ray) (world_to_object env ray) (out_dir env ray)
      (bs.1.emissive, ⟨bs.2, s.log ++ [Event.scene_hit ray,
        Event.bsdf_sample (env.scene_hit ray).material (out_dir env ray)]⟩)).1 = direct := by
  intro bsdf bs r direct
  have hall : all_lights env = env.lights ++ [e.toLight] := by
    simp [all_lights, he]
  have hdirect : (direct_lighting env bsdf (shading_hit env ray) (world_to_object env ray)
      (out_dir env ray) (bs.1.emissive, ⟨bs.2, s.log ++ [Event.scene_hit ray,
        Event.bsdf_sample (env.scene_hit ray).material (out_dir env ray)]⟩)).1 = direct := by
    rw [direct_lighting_all_lights env bsdf _ _ _ _ hnd, hall]
    exact (sample_lights_spec env _ _ _ _ _).1
  refine ⟨?_, hdirect⟩
  rw [trace_ray_hit env ray s (by omega) hm hn]
  simp only []
  rw [if_neg hu, trace_ray_miss_some env _ _ e (by simp only [bounced_ray]; omega) hmiss he]
  simp only []
  rw [hdirect]
  rfl

theorem env_light_two_routes_witness :
    (trace_ray ex_env_sky2 ex_ray_down ex_st).1 =
      (accumulate ⟨0, 0, 0⟩ [⟨1 / 4, 1 / 4, 1 / 4⟩, ⟨1 / 2, 1 / 2, 1 / 2⟩,
        ⟨1 / 2, 1 / 2, 1 / 2⟩]).add ⟨1 / 2, 1 / 2, 1 / 2⟩ := by
  have h := env_light_two_routes ex_env_sky2 ex_ray_down ex_st ex_sky (by decide) (by decide)
    rfl rfl rfl
    (by
      simp [ex_env_sky2, ex_env, ex_bsdf, ex_st, roulette_prob, direct_lighting, sample_lights,
        sample_light, sample_light_loop, sample_light_iter, sample_count, to_int, ex_light, ex_sky,
        St.emit, St.withRng, ex_floor, shadow_ray, Ray.mk2, world_to_object, object_to_world,
        Mat4.I, Mat4.T, Mat4.rotate, shading_hit, flip_normal, ex_ray_down]
      norm_num)
    (by
      simp [ex_env_sky2, ex_env, ex_bsdf, ex_floor, bounced_ray, Ray.mk2, object_to_world,
        Mat4.I, Mat4.rotate]
      norm_num)
  simp only [] at h
  rw [h.1]
  simp [ex_env_sky2, ex_env, ex_bsdf, ex_light, ex_sky, ex_st, ex_floor, ex_ray_down,
    lights_terms, light_terms, sample_contribution, fdiv, to_int, accumulate, shadow_ray, Ray.mk2, Mat4.I,
    Mat4.T, Mat4.rotate, Spectrum.add, Spectrum.mul, Spectrum.muls, Spectrum.divs,
    Spectrum.scale, Spectrum.zero, roulette_prob, world_to_object, object_to_world,
    shading_hit, flip_normal, bounced_ray, out_dir, Vec3.sub, Vec3.neg, dot]
  norm_num

/-- C18: when `debug_data.normal_colors` is set, a ray with depth at most `max_depth` that hits
geometry makes `trace_ray` return `Spectrum::direction` of the possibly flipped hit normal. The
random source is untouched and the only call logged is the scene query, so no reflectance
sample, light sample, shadow ray, roulette draw or recursion happens. The value is the same
for any other materials' reflectance, lights and random source, as long as the scene, the
`is_sided` flags and `Spectrum::direction` are the same. -/
theorem trace_ray_normal_colors (env : Env σ) (ray : Ray) (s : St σ)
    (h : ray.depth ≤ env.max_depth) (hm : (env.scene_hit ray).hit = true)
    (hn : env.normal_colors = true) :
    trace_ray env ray s =
      (env.direction (shading_hit env ray).normal, ⟨s.rng, s.log ++ [Event.scene_hit ray]⟩) ∧
    (∀ (env2 : Env σ) (s2 : St σ), env2.max_depth = env.max_depth →
      env2.normal_colors = true → env2.scene_hit = env.scene_hit →
      env2.direction = env.direction →
      (∀ m, (env2.materials m).is_sided = (env.materials m).is_sided) →
      (trace_ray env2 ray s2).1 = (trace_ray env ray s).1) := by
  refine ⟨trace_ray_debug env ray s h hm hn, ?_⟩
  intro env2 s2 h1 h2 h3 h4 h5
  rw [trace_ray_debug env ray s h hm hn, trace_ray_debug env2 ray s2 (by omega)
    (by rw [h3]; exact hm) h2]
  simp only [shading_hit, flip_normal, h3, h4, h5]

theorem trace_ray_normal_colors_witness :
    trace_ray ex_env_debug ex_ray_down ex_st =
      (⟨1 / 2, 1, 1 / 2⟩, ⟨ex_st.rng, [Event.scene_hit ex_ray_down]⟩) := by
  rw [(trace_ray_normal_colors ex_env_debug ex_ray_down ex_st (by decide) (by decide) rfl).1]
  simp [ex_env_debug, ex_env, ex_bsdf, ex_st, ex_floor, ex_ray_down, shading_hit, flip_normal,
    dot]
  norm_num

end Integrator

end PT
